import Mathlib

/-!
# Verification of the automated prefix-creation service

A shallow embedding of the shortcut-store, identifier-derivation,
config-patching and workflow logic of
`src/jackify/backend/services/automated_prefix_service.py`, together with
theorems settling the frozen claims C1-C10 about it.

Conventions of the embedding:

* Python VDF values (the entries of the decoded `shortcuts.vdf` mapping)
  are modelled by `VdfVal`; a Python `dict` is an ordered association list
  (insertion order, unique keys), exactly the observable behaviour of
  `dict` for the operations the source uses (`get`, `[k] = v`, `update`,
  `values`, iteration).
* Python `int` is `Int`; `x & 0xFFFFFFFF` on a possibly-negative int is
  `x % 2^32` (`Int.emod`, which like Python's `%` returns the
  representative in `[0, 2^32)`), and `x << n` is `x * 2^n`.
* Byte strings are `List Nat` of values < 256; `str.encode('utf-8')` is
  the standard UTF-8 encoding of the string's scalar values.
* `zlib.crc32` and `hashlib.md5` are the standard CRC-32 (ISO 3309,
  reflected polynomial 0xEDB88320) and MD5 algorithms, embedded here over
  `Nat` with explicit 32-bit masking.
* Functions that Python exits early from via a caught exception or a
  `return False` are modelled with `Option`: `none` is the
  failure/exception outcome in which no file write happens.
* All recursion is structural or fuel-based so every definition reduces
  in the kernel and can be evaluated on concrete inputs.
-/

set_option maxRecDepth 4000000

namespace Jackify

/-- A decoded VDF value as manipulated by the Python source: a string, an
integer, or a nested mapping (used for the `tags` field). -/
inductive VdfVal where
  | vs (s : String)
  | vi (n : Int)
  | vd (d : List (String × VdfVal))

/-- A Python dict of VDF values: one library entry ("shortcut"). -/
abbrev Entry := List (String × VdfVal)

/-- The decoded `shortcuts` mapping: keys (decimal-index strings) to entries. -/
abbrev Shortcuts := List (String × Entry)

/-- Python `d.get(k)` / `d[k]` on a dict with unique keys. -/
def dget? {α : Type} : List (String × α) → String → Option α
  | [], _ => none
  | (k₀, v₀) :: t, k => if k₀ == k then some v₀ else dget? t k

/-- Python `d[k] = v`: replace in place if the key exists (keeping its
position, as `dict` does), else append at the end. -/
def dset {α : Type} (d : List (String × α)) (k : String) (v : α) : List (String × α) :=
  if (dget? d k).isSome then
    d.map (fun p => if p.1 == k then (p.1, v) else p)
  else d ++ [(k, v)]

/-- Python `d.update(kvs)`: assign each key/value pair in order. -/
def dictUpdate (e : Entry) : List (String × VdfVal) → Entry
  | [] => e
  | (k, v) :: rest => dictUpdate (dset e k v) rest

theorem dget?_cons {α : Type} (k₀ : String) (v₀ : α) (t : List (String × α)) (k : String) :
    dget? ((k₀, v₀) :: t) k = if k₀ == k then some v₀ else dget? t k := rfl

theorem dget?_mapReplace_self {α : Type} (d : List (String × α)) (k : String) (v : α) :
    dget? (d.map (fun p => if p.1 == k then (p.1, v) else p)) k =
      (dget? d k).map (fun _ => v) := by
  induction d with
  | nil => rfl
  | cons p t ih =>
      obtain ⟨k₀, v₀⟩ := p
      by_cases h : k₀ = k
      · subst h
        simp [dget?_cons]
      · have hb : (k₀ == k) = false := by simpa using h
        simp only [List.map_cons, hb, Bool.false_eq_true, if_false, dget?_cons]
        exact ih

theorem dget?_mapReplace_ne {α : Type} (d : List (String × α)) (k k' : String) (v : α)
    (hne : k' ≠ k) : dget? (d.map (fun p => if p.1 == k then (p.1, v) else p)) k' = dget? d k' := by
  induction d with
  | nil => rfl
  | cons p t ih =>
      obtain ⟨k₀, v₀⟩ := p
      by_cases h : k₀ = k
      · subst h
        have h' : (k₀ == k') = false := by
          simp only [beq_eq_false_iff_ne, ne_eq]
          exact fun hh => hne hh.symm
        simp only [List.map_cons, beq_self_eq_true, if_true, dget?_cons, h',
          Bool.false_eq_true, if_false]
        exact ih
      · have hb : (k₀ == k) = false := by simpa using h
        simp only [List.map_cons, hb, Bool.false_eq_true, if_false, dget?_cons]
        by_cases h2 : (k₀ == k') = true
        · simp only [h2, if_true]
        · simp only [Bool.not_eq_true] at h2
          simp only [h2, Bool.false_eq_true, if_false]
          exact ih

theorem dget?_append_of_none {α : Type} (d₁ d₂ : List (String × α)) (k : String)
    (h : dget? d₁ k = none) : dget? (d₁ ++ d₂) k = dget? d₂ k := by
  induction d₁ with
  | nil => rfl
  | cons p t ih =>
      obtain ⟨k₀, v₀⟩ := p
      by_cases hk : (k₀ == k) = true
      · rw [dget?_cons, if_pos hk] at h
        exact absurd h (by simp)
      · simp only [Bool.not_eq_true] at hk
        rw [dget?_cons, if_neg (by simp [hk])] at h
        rw [List.cons_append, dget?_cons, if_neg (by simp [hk])]
        exact ih h

theorem dget?_append_of_some {α : Type} (d₁ d₂ : List (String × α)) (k : String) (v : α)
    (h : dget? d₁ k = some v) : dget? (d₁ ++ d₂) k = some v := by
  induction d₁ with
  | nil => exact absurd h (by simp [dget?])
  | cons p t ih =>
      obtain ⟨k₀, v₀⟩ := p
      by_cases hk : (k₀ == k) = true
      · rw [dget?_cons, if_pos hk] at h
        rw [List.cons_append, dget?_cons, if_pos hk]
        exact h
      · simp only [Bool.not_eq_true] at hk
        rw [dget?_cons, if_neg (by simp [hk])] at h
        rw [List.cons_append, dget?_cons, if_neg (by simp [hk])]
        exact ih h

theorem dget?_dset_self {α : Type} (d : List (String × α)) (k : String) (v : α) :
    dget? (dset d k v) k = some v := by
  by_cases h : (dget? d k).isSome
  · obtain ⟨w, hw⟩ := Option.isSome_iff_exists.mp h
    rw [dset, if_pos h, dget?_mapReplace_self, hw]
    rfl
  · have hnone : dget? d k = none := Option.not_isSome_iff_eq_none.mp h
    rw [dset, if_neg h, dget?_append_of_none _ _ _ hnone, dget?_cons,
      if_pos (by simp)]

theorem dget?_dset_ne {α : Type} (d : List (String × α)) (k k' : String) (v : α)
    (hne : k' ≠ k) : dget? (dset d k v) k' = dget? d k' := by
  by_cases h : (dget? d k).isSome
  · rw [dset, if_pos h]
    exact dget?_mapReplace_ne d k k' v hne
  · rw [dset, if_neg h]
    cases hv : dget? d k' with
    | some w => exact dget?_append_of_some _ _ _ _ hv
    | none =>
        rw [dget?_append_of_none _ _ _ hv, dget?_cons,
          if_neg (by simp; exact fun hh => hne hh.symm)]
        rfl

/-! ## Python string primitives -/

/-- The double-quote character. -/
def dq : Char := Char.ofNat 34

/-- Python f-string `f'"{s}"'`: wrap in double quotes. -/
def quoted (s : String) : String := "\"" ++ s ++ "\""

/-- Python `s.strip(c)`: remove all leading and trailing occurrences of `c`. -/
def pyStripChar (s : String) (c : Char) : String :=
  ⟨((s.data.dropWhile (· == c)).reverse.dropWhile (· == c)).reverse⟩

/-- Python `s.strip()`: remove leading and trailing whitespace. -/
def pyStripWs (s : String) : String :=
  ⟨((s.data.dropWhile Char.isWhitespace).reverse.dropWhile Char.isWhitespace).reverse⟩

/-- Python `sub in s`: substring containment. -/
def pyIn (sub s : String) : Bool := decide (sub.data <:+: s.data)

/-- Char-list prefix test (structural, kernel-reducible). -/
def listPrefix : List Char → List Char → Bool
  | [], _ => true
  | _ :: _, [] => false
  | a :: as, b :: bs => a == b && listPrefix as bs

/-- Python `s.endswith(t)`. -/
def pyEndsWith (s t : String) : Bool := listPrefix t.data.reverse s.data.reverse

theorem pyIn_of_middle (a x y : String) : pyIn a (x ++ a ++ y) = true := by
  simp only [pyIn, String.data_append, decide_eq_true_eq]
  exact List.infix_append x.data a.data y.data

/-! ## Python `str(n)`: decimal representation of a natural number -/

/-- Little-endian decimal digits (fuel-based; correct whenever `n ≤ fuel`). -/
def decDigitsAux : Nat → Nat → List Nat
  | 0, n => [n % 10]
  | fuel + 1, n => if n < 10 then [n] else n % 10 :: decDigitsAux fuel (n / 10)

def decDigits (n : Nat) : List Nat := decDigitsAux n n

def digitChar (d : Nat) : Char := Char.ofNat (48 + d)

/-- Python `str(n)` for a natural number. -/
def natToDec (n : Nat) : String := ⟨(decDigits n).reverse.map digitChar⟩

/-- The value a little-endian digit list denotes. -/
def digitsVal : List Nat → Nat
  | [] => 0
  | d :: t => d + 10 * digitsVal t

theorem digitsVal_decDigitsAux : ∀ fuel n, n ≤ fuel → digitsVal (decDigitsAux fuel n) = n
  | 0, n, h => by
      have hn : n = 0 := Nat.le_zero.mp h
      subst hn; rfl
  | fuel + 1, n, h => by
      by_cases h10 : n < 10
      · simp [decDigitsAux, h10, digitsVal]
      · have hlt : n / 10 < n := Nat.div_lt_self (by omega) (by norm_num)
        have hrec : n / 10 ≤ fuel := by omega
        simp only [decDigitsAux, h10, if_false, digitsVal,
          digitsVal_decDigitsAux fuel (n / 10) hrec]
        omega

theorem digitsVal_decDigits (n : Nat) : digitsVal (decDigits n) = n :=
  digitsVal_decDigitsAux n n le_rfl

theorem decDigitsAux_lt : ∀ fuel n, ∀ d ∈ decDigitsAux fuel n, d < 10
  | 0, n => by
      intro d hd
      simp only [decDigitsAux, List.mem_singleton] at hd
      omega
  | fuel + 1, n => by
      intro d hd
      by_cases h10 : n < 10
      · simp only [decDigitsAux, h10, if_true, List.mem_singleton] at hd
        omega
      · simp only [decDigitsAux, h10, if_false, List.mem_cons] at hd
        rcases hd with hd | hd
        · omega
        · exact decDigitsAux_lt fuel (n / 10) d hd

theorem digitChar_inj_lt : ∀ d₁ < 10, ∀ d₂ < 10, digitChar d₁ = digitChar d₂ → d₁ = d₂ := by
  decide

theorem map_digitChar_inj : ∀ l₁ l₂ : List Nat, (∀ d ∈ l₁, d < 10) → (∀ d ∈ l₂, d < 10) →
    l₁.map digitChar = l₂.map digitChar → l₁ = l₂
  | [], [], _, _, _ => rfl
  | [], _ :: _, _, _, h => by simp at h
  | _ :: _, [], _, _, h => by simp at h
  | a :: t₁, b :: t₂, h₁, h₂, h => by
      simp only [List.map_cons, List.cons.injEq] at h
      have ha : a = b := digitChar_inj_lt a (h₁ a (by simp)) b (h₂ b (by simp)) h.1
      have ht : t₁ = t₂ := map_digitChar_inj t₁ t₂
        (fun d hd => h₁ d (by simp [hd])) (fun d hd => h₂ d (by simp [hd])) h.2
      rw [ha, ht]

theorem natToDec_inj {m n : Nat} (h : natToDec m = natToDec n) : m = n := by
  have hdata : (decDigits m).reverse.map digitChar = (decDigits n).reverse.map digitChar :=
    congrArg String.data h
  have hrev : (decDigits m).reverse = (decDigits n).reverse :=
    map_digitChar_inj _ _
      (fun d hd => decDigitsAux_lt m m d (List.mem_reverse.mp hd))
      (fun d hd => decDigitsAux_lt n n d (List.mem_reverse.mp hd)) hdata
  have hdig : decDigits m = decDigits n := List.reverse_inj.mp hrev
  calc m = digitsVal (decDigits m) := (digitsVal_decDigits m).symm
    _ = digitsVal (decDigits n) := by rw [hdig]
    _ = n := digitsVal_decDigits n

theorem natToDec_beq_iff (k i : Nat) : (natToDec k == natToDec i) = true ↔ k = i := by
  constructor
  · intro h
    exact natToDec_inj (beq_iff_eq.mp h)
  · intro h
    subst h; exact beq_self_eq_true _

/-! ## The sequentially indexed store -/

/-- The Python dict comprehension `{str(i): s for i, s in enumerate(entries)}`
starting at index `k`. -/
def seqFrom (k : Nat) : List Entry → Shortcuts
  | [] => []
  | e :: t => (natToDec k, e) :: seqFrom (k + 1) t

/-- `{str(i): s for i, s in enumerate(entries)}`: the collection the service
writes back, keyed by sequential decimal-index strings. -/
def seqStore (l : List Entry) : Shortcuts := seqFrom 0 l

theorem seqFrom_map_fst (l : List Entry) (k : Nat) :
    (seqFrom k l).map Prod.fst = (List.range' k l.length).map natToDec := by
  induction l generalizing k with
  | nil => rfl
  | cons e t ih => simp [seqFrom, List.range'_succ, ih]

theorem seqStore_map_fst (l : List Entry) :
    (seqStore l).map Prod.fst = (List.range l.length).map natToDec := by
  rw [seqStore, seqFrom_map_fst, List.range_eq_range']

theorem seqFrom_map_snd (l : List Entry) (k : Nat) :
    (seqFrom k l).map Prod.snd = l := by
  induction l generalizing k with
  | nil => rfl
  | cons e t ih => simp [seqFrom, ih]

theorem seqFrom_length (l : List Entry) (k : Nat) : (seqFrom k l).length = l.length := by
  induction l generalizing k with
  | nil => rfl
  | cons e t ih => simp [seqFrom, ih]

theorem dget?_seqFrom (l : List Entry) (k i : Nat) :
    dget? (seqFrom k l) (natToDec i) = if k ≤ i then l.get? (i - k) else none := by
  induction l generalizing k with
  | nil =>
      simp [seqFrom, dget?]
  | cons e t ih =>
      by_cases hki : k = i
      · subst hki
        simp [seqFrom, dget?_cons]
      · have hb : (natToDec k == natToDec i) = false := by
          rw [Bool.eq_false_iff]
          intro hc
          exact hki ((natToDec_beq_iff k i).mp hc)
        rw [seqFrom, dget?_cons, if_neg (by simp [hb]), ih]
        by_cases hle : k ≤ i
        · have h1 : k + 1 ≤ i := by omega
          have h2 : i - k = (i - (k + 1)) + 1 := by omega
          simp [hle, h1, h2]
        · have h1 : ¬(k + 1 ≤ i) := by omega
          simp [hle, h1]

theorem dget?_seqStore (l : List Entry) (i : Nat) :
    dget? (seqStore l) (natToDec i) = l.get? i := by
  simp [seqStore, dget?_seqFrom]

theorem seqFrom_mapReplace (l : List Entry) (k i : Nat) (f : Entry → Entry) :
    (seqFrom k l).map (fun p => if p.1 == natToDec i then (p.1, f p.2) else p) =
      if k ≤ i then seqFrom k (l.set (i - k) (f (l.getD (i - k) []))) else seqFrom k l := by
  induction l generalizing k with
  | nil => simp [seqFrom]
  | cons e t ih =>
      by_cases hki : k = i
      · subst hki
        have hnot : ¬(k + 1 ≤ k) := by omega
        rw [seqFrom, List.map_cons, if_pos (by simp), ih (k + 1), if_neg hnot]
        simp [seqFrom]
      · have hb : (natToDec k == natToDec i) = false := by
          rw [Bool.eq_false_iff]
          intro hc
          exact hki ((natToDec_beq_iff k i).mp hc)
        rw [seqFrom, List.map_cons]
        rw [if_neg (by simp [hb]), ih]
        by_cases hle : k ≤ i
        · have h1 : k + 1 ≤ i := by omega
          have h2 : i - k = (i - (k + 1)) + 1 := by omega
          simp [hle, h1, h2, seqFrom]
        · have h1 : ¬(k + 1 ≤ i) := by omega
          simp [hle, h1, seqFrom]

/-! ## Bytes, UTF-8, CRC-32 (`zlib.crc32`) and MD5 (`hashlib.md5`)

The source calls `zlib.crc32` and `hashlib.md5` on UTF-8 encoded strings.
Both are embedded here over `Nat` bytes with explicit 32-bit masking.
-/

/-- UTF-8 encoding of one Unicode scalar value. -/
def utf8Char (c : Nat) : List Nat :=
  if c < 0x80 then [c]
  else if c < 0x800 then [0xC0 ||| (c >>> 6), 0x80 ||| (c &&& 0x3F)]
  else if c < 0x10000 then
    [0xE0 ||| (c >>> 12), 0x80 ||| ((c >>> 6) &&& 0x3F), 0x80 ||| (c &&& 0x3F)]
  else
    [0xF0 ||| (c >>> 18), 0x80 ||| ((c >>> 12) &&& 0x3F),
     0x80 ||| ((c >>> 6) &&& 0x3F), 0x80 ||| (c &&& 0x3F)]

/-- Python `s.encode('utf-8')` as a byte list. -/
def utf8 (s : String) : List Nat :=
  (s.data.map (fun ch => utf8Char ch.toNat)).flatten

/-- The reflected CRC-32 polynomial 0xEDB88320 (ISO 3309, as in zlib). -/
def crcPoly : Nat := 0xEDB88320

/-- One bit step of CRC-32: shift right, conditionally XOR the polynomial. -/
def crcBit (crc : Nat) : Nat :=
  if crc % 2 = 1 then (crc >>> 1) ^^^ crcPoly else crc >>> 1

/-- One byte step: XOR the byte into the low bits, then 8 bit steps. -/
def crcByte (crc : Nat) (b : Nat) : Nat :=
  crcBit (crcBit (crcBit (crcBit (crcBit (crcBit (crcBit (crcBit (crc ^^^ b))))))))

/-- `zlib.crc32(data)`: initial value 0xFFFFFFFF, final complement. -/
def crc32 (bytes : List Nat) : Nat :=
  (bytes.foldl crcByte 0xFFFFFFFF) ^^^ 0xFFFFFFFF

def mask32 : Nat := 0xFFFFFFFF

/-- Left-rotation of a 32-bit value. -/
def rotl32 (x n : Nat) : Nat := ((x <<< n) ||| (x >>> (32 - n))) &&& mask32

/-- The 64 MD5 sine-table constants. -/
def md5K : List Nat :=
  [0xd76aa478, 0xe8c7b756, 0x242070db, 0xc1bdceee,
   0xf57c0faf, 0x4787c62a, 0xa8304613, 0xfd469501,
   0x698098d8, 0x8b44f7af, 0xffff5bb1, 0x895cd7be,
   0x6b901122, 0xfd987193, 0xa679438e, 0x49b40821,
   0xf61e2562, 0xc040b340, 0x265e5a51, 0xe9b6c7aa,
   0xd62f105d, 0x02441453, 0xd8a1e681, 0xe7d3fbc8,
   0x21e1cde6, 0xc33707d6, 0xf4d50d87, 0x455a14ed,
   0xa9e3e905, 0xfcefa3f8, 0x676f02d9, 0x8d2a4c8a,
   0xfffa3942, 0x8771f681, 0x6d9d6122, 0xfde5380c,
   0xa4beea44, 0x4bdecfa9, 0xf6bb4b60, 0xbebfbc70,
   0x289b7ec6, 0xeaa127fa, 0xd4ef3085, 0x04881d05,
   0xd9d4d039, 0xe6db99e5, 0x1fa27cf8, 0xc4ac5665,
   0xf4292244, 0x432aff97, 0xab9423a7, 0xfc93a039,
   0x655b59c3, 0x8f0ccc92, 0xffeff47d, 0x85845dd1,
   0x6fa87e4f, 0xfe2ce6e0, 0xa3014314, 0x4e0811a1,
   0xf7537e82, 0xbd3af235, 0x2ad7d2bb, 0xeb86d391]

/-- The 64 MD5 per-round rotation amounts. -/
def md5S : List Nat :=
  [7, 12, 17, 22, 7, 12, 17, 22, 7, 12, 17, 22, 7, 12, 17, 22,
   5,  9, 14, 20, 5,  9, 14, 20, 5,  9, 14, 20, 5,  9, 14, 20,
   4, 11, 16, 23, 4, 11, 16, 23, 4, 11, 16, 23, 4, 11, 16, 23,
   6, 10, 15, 21, 6, 10, 15, 21, 6, 10, 15, 21, 6, 10, 15, 21]

/-- MD5 round function and message-word index for round `i`. -/
def md5FG (i b c d : Nat) : Nat × Nat :=
  if i < 16 then ((b &&& c) ||| ((b ^^^ mask32) &&& d), i)
  else if i < 32 then ((d &&& b) ||| ((d ^^^ mask32) &&& c), (5 * i + 1) % 16)
  else if i < 48 then (b ^^^ c ^^^ d, (3 * i + 5) % 16)
  else (c ^^^ (b ||| (d ^^^ mask32)), (7 * i) % 16)

/-- One MD5 operation on the running state over message words `M`. -/
def md5Op (M : List Nat) (st : Nat × Nat × Nat × Nat) (i : Nat) : Nat × Nat × Nat × Nat :=
  let (a, b, c, d) := st
  let (f, g) := md5FG i b c d
  let x := (a + f + (md5K.getD i 0) + (M.getD g 0)) &&& mask32
  let b' := (b + rotl32 x (md5S.getD i 0)) &&& mask32
  (d, b', b, c)

/-- A 64-byte chunk as sixteen little-endian 32-bit words. -/
def md5Words : List Nat → List Nat
  | b0 :: b1 :: b2 :: b3 :: rest =>
      (b0 ||| (b1 <<< 8) ||| (b2 <<< 16) ||| (b3 <<< 24)) :: md5Words rest
  | _ => []

/-- Process one 64-byte chunk. -/
def md5Chunk (st : Nat × Nat × Nat × Nat) (chunk : List Nat) : Nat × Nat × Nat × Nat :=
  let M := md5Words chunk
  let (a0, b0, c0, d0) := st
  let (a, b, c, d) := (List.range 64).foldl (md5Op M) (a0, b0, c0, d0)
  ((a0 + a) &&& mask32, (b0 + b) &&& mask32, (c0 + c) &&& mask32, (d0 + d) &&& mask32)

/-- Split a byte list into chunks of 64 (fuel-based). -/
def chunks64Aux : Nat → List Nat → List (List Nat)
  | 0, bs => [bs.take 64]
  | fuel + 1, bs =>
      if bs.length ≤ 64 then [bs.take 64]
      else bs.take 64 :: chunks64Aux fuel (bs.drop 64)

def chunks64 (bs : List Nat) : List (List Nat) := chunks64Aux bs.length bs

/-- A 64-bit value as 8 little-endian bytes. -/
def le8 (n : Nat) : List Nat :=
  [n &&& 0xFF, (n >>> 8) &&& 0xFF, (n >>> 16) &&& 0xFF, (n >>> 24) &&& 0xFF,
   (n >>> 32) &&& 0xFF, (n >>> 40) &&& 0xFF, (n >>> 48) &&& 0xFF, (n >>> 56) &&& 0xFF]

/-- A 32-bit value as 4 little-endian bytes. -/
def le4 (n : Nat) : List Nat :=
  [n &&& 0xFF, (n >>> 8) &&& 0xFF, (n >>> 16) &&& 0xFF, (n >>> 24) &&& 0xFF]

/-- MD5 padding: 0x80, zeros to 56 mod 64, then the bit length as 64-bit LE. -/
def md5Pad (bs : List Nat) : List Nat :=
  let L := bs.length
  let zeros := (119 - (L % 64)) % 64
  bs ++ [0x80] ++ List.replicate zeros 0 ++ le8 ((8 * L) % (2 ^ 64))

/-- The 16-byte MD5 digest of a byte list (`hashlib.md5(data).digest()`). -/
def md5Bytes (bs : List Nat) : List Nat :=
  let st0 := (0x67452301, 0xefcdab89, 0x98badcfe, 0x10325476)
  let (a, b, c, d) := (chunks64 (md5Pad bs)).foldl md5Chunk st0
  le4 a ++ le4 b ++ le4 c ++ le4 d

def hexDigit (n : Nat) : Char := "0123456789abcdef".data.getD n '0'

/-- Lower-case hex rendering of a byte list (Python `.hexdigest()`). -/
def hexOfBytes (bs : List Nat) : List Char :=
  (bs.map (fun b => [hexDigit (b / 16), hexDigit (b % 16)])).flatten

/-- Python `int(cs, 16)` for lower-case hex digit characters. -/
def hexVal (c : Char) : Nat :=
  if c.toNat ≥ 97 then c.toNat - 87 else c.toNat - 48

def parseHex (cs : List Char) : Nat := cs.foldl (fun a c => 16 * a + hexVal c) 0

/-- A byte list read as a big-endian number. -/
def beVal (bs : List Nat) : Nat := bs.foldl (fun a b => 256 * a + b) 0

/-! ## Identifier derivation (the source's three AppID computations) -/

/-- Python `x & 0xFFFFFFFF` on an arbitrary (possibly negative) int: Python's
`&` acts on the infinite two's-complement representation, so with the mask
`2^32 - 1` it returns the nonnegative residue of `x` modulo `2^32`, which is
exactly `Int.emod x (2^32)`. -/
def pyAnd32 (x : Int) : Int := x % (2 ^ 32)

/-- Lines 670-674 (`create_shortcut_directly_with_proton`) and 1409-1413
(`run_complete_workflow`):

    combined_string = exe_path + shortcut_name
    crc = crc32(combined_string.encode('utf-8'))
    appid = -(crc & 0x7FFFFFFF)
-/
def crc32_appid (exe_path shortcut_name : String) : Int :=
  -(Int.ofNat ((crc32 (utf8 (exe_path ++ shortcut_name))) &&& 0x7FFFFFFF))

/-- Lines 495-505 (`generate_steam_short_id`): `signed_appid & 0xFFFFFFFF`. -/
def generate_steam_short_id (signed_appid : Int) : Int := pyAnd32 signed_appid

/-- Python `x | m` for a nonnegative mask `m`, on Python's infinite
two's-complement integers: for `x ≥ 0` it is the bitwise or of naturals;
for `x < 0`, writing `x = -(n+1)` (so the complement of `x` has bit
pattern `n`), de Morgan gives `x | m = ~(n & ~m) = -((n & ~m) + 1)`, and
clearing the `m`-bits of `n` is the subtraction `n - (n &&& m)`. -/
def pyOrMask (x : Int) (m : Nat) : Int :=
  match x with
  | .ofNat a => Int.ofNat (a ||| m)
  | .negSucc n => Int.negSucc (n - (n &&& m))

/-- Lines 519-523 (`launch_shortcut_to_trigger_prefix`):

    unsigned_appid = self.generate_steam_short_id(initial_appid)
    rungameid = (unsigned_appid << 32) | 0x02000000

Python `a << 32` is `a * 2^32`. -/
def rungameid_of_launch_shortcut (initial_appid : Int) : Int :=
  pyOrMask (generate_steam_short_id initial_appid * 2 ^ 32) 0x02000000

/-- Line 1416 (`run_complete_workflow`):

    rungameid = (initial_appid << 32) | 0x02000000

taken over the *signed* `initial_appid`. -/
def rungameid_of_run_complete_workflow (initial_appid : Int) : Int :=
  pyOrMask (initial_appid * 2 ^ 32) 0x02000000

/-- Lines 2731-2733 (`get_prefix_path`) and 1419 (`run_complete_workflow`):
the on-disk prefix directory name, `str(abs(appid))`. -/
def prefix_dir_name (appid : Int) : String := natToDec appid.natAbs

/-- Lines 2008-2020 (`predict_appid_using_stl_algorithm`), the signed value:

    combined_string = f"{shortcut_name}{exe_path}"
    md5_hash = hashlib.md5(combined_string.encode()).hexdigest()
    seed_hex = md5_hash[:8]
    seed_decimal = int(seed_hex, 16)
    signed_appid = -(seed_decimal % 1000000000)
-/
def stl_signed_appid (shortcut_name exe_path : String) : Int :=
  let combined := shortcut_name ++ exe_path
  let seed_hex := (hexOfBytes (md5Bytes (utf8 combined))).take 8
  let seed_decimal := parseHex seed_hex;
  -(Int.ofNat (seed_decimal % 1000000000))

/-- Lines 2005-2027 (`predict_appid_using_stl_algorithm`), the returned value:
`unsigned_appid = signed_appid & 0xFFFFFFFF`. -/
def predict_appid_using_stl_algorithm (shortcut_name exe_path : String) : Int :=
  pyAnd32 (stl_signed_appid shortcut_name exe_path)

/-- Modelled from the spec: the C2 claim's reading of the derivation, taking
"the low 32 bits of that hash" to be the numerically low 32 bits of the
128-bit MD5 value (its hex digest read as one big-endian number, reduced
modulo `2^32`), then reducing modulo one billion and negating. -/
def spec_low32_signed_appid (shortcut_name exe_path : String) : Int :=
  -(Int.ofNat ((beVal (md5Bytes (utf8 (shortcut_name ++ exe_path))) % 2 ^ 32) % 1000000000))

/-! ## Entry helpers -/

/-- Python `e.get('AppName') == name` with no default: a missing key yields
`None`, and `None == str` (or non-string `== str`) is `False`. -/
def nameMatchesNoDefault (e : Entry) (name : String) : Bool :=
  match dget? e "AppName" with
  | some (.vs s) => s == name
  | _ => false

/-- Python `e.get(k, default)` for the string fields of an entry. Total model:
under `entryWF` (the only stores the theorems quantify over, and the only
ones the service itself writes) the stored value is always a string. -/
def getS (e : Entry) (k default_ : String) : String :=
  match dget? e k with
  | some (.vs s) => s
  | _ => default_

/-- The field `k` is absent or holds a string. -/
def strOrAbsent (e : Entry) (k : String) : Bool :=
  match dget? e k with
  | none => true
  | some (.vs _) => true
  | some _ => false

/-- Well-formedness of an entry: the fields the service reads as strings are
absent or strings (Python would raise on the operations applied otherwise). -/
def entryWF (e : Entry) : Bool :=
  strOrAbsent e "AppName" && strOrAbsent e "Exe" && strOrAbsent e "StartDir" &&
    strOrAbsent e "LaunchOptions" && strOrAbsent e "CompatTool"

/-! ## `create_shortcut_directly_with_proton` (lines 650-765), store part

The function derives the CRC-based AppID from the *final* exe path, then
upserts an entry pointing at the temporary batch file
`Path.home() / "Jackify/temp_prefix_creation.bat"`, and rebuilds the
mapping as `{str(i): s for i, s in enumerate(new_shortcuts_list)}`.
The subsequent `set_proton_version_for_shortcut` call touches `config.vdf`
only, not this store, so it is outside this function's store transformation.
-/

/-- `Path.home() / "Jackify/temp_prefix_creation.bat"` for a given home. -/
def temp_batch_path (home : String) : String := home ++ "/Jackify/temp_prefix_creation.bat"

/-- The `shortcut.update({...})` payload at lines 707-714. -/
def upsertFields (home : String) (appid : Int) : List (String × VdfVal) :=
  [("Exe", .vs (quoted (temp_batch_path home))),
   ("StartDir", .vs (quoted (home ++ "/Jackify"))),
   ("appid", .vi appid),
   ("LaunchOptions", .vs ""),
   ("tags", .vd []),
   ("CompatTool", .vs "proton_experimental")]

/-- The fresh entry dict literal at lines 723-742. -/
def new_shortcut_entry (shortcut_name : String) (appid : Int) (home : String) : Entry :=
  [("AppName", .vs shortcut_name),
   ("Exe", .vs (quoted (temp_batch_path home))),
   ("StartDir", .vs (quoted (home ++ "/Jackify"))),
   ("appid", .vi appid),
   ("icon", .vs ""),
   ("ShortcutPath", .vs ""),
   ("LaunchOptions", .vs ""),
   ("IsHidden", .vi 0),
   ("AllowDesktopConfig", .vi 1),
   ("AllowOverlay", .vi 1),
   ("OpenVR", .vi 0),
   ("Devkit", .vi 0),
   ("DevkitGameID", .vs ""),
   ("LastPlayTime", .vi 0),
   ("FlatpakAppID", .vs ""),
   ("tags", .vd []),
   ("sortas", .vs ""),
   ("CompatTool", .vs "proton_experimental")]

/-- The `for shortcut in shortcuts_list` loop at lines 703-718: rebuild the
value list in order, applying `upd` to every entry whose `AppName` equals
`name`; the second component is the `found` flag. -/
def upsertPass (name : String) (upd : Entry → Entry) : List Entry → List Entry × Bool
  | [] => ([], false)
  | e :: t =>
      let r := upsertPass name upd t
      if nameMatchesNoDefault e name then (upd e :: r.1, true) else (e :: r.1, r.2)

/-- The store transformation of `create_shortcut_directly_with_proton`. -/
def create_shortcut_directly_with_proton
    (home shortcut_name exe_path modlist_install_dir : String) (store : Shortcuts) : Shortcuts :=
  let _ := modlist_install_dir
  let appid := crc32_appid exe_path shortcut_name
  let vals := store.map Prod.snd
  let r := upsertPass shortcut_name (fun e => dictUpdate e (upsertFields home appid)) vals
  let newList := if r.2 then r.1 else r.1 ++ [new_shortcut_entry shortcut_name appid home]
  seqStore newList

/-! ## `replace_shortcut_with_final_exe` (lines 767-832), store part -/

/-- The `shortcut.update({...})` payload at lines 802-808. Note `StartDir`
is written *unquoted* here, unlike the creation path. -/
def replaceFields (final_exe_path modlist_install_dir : String) : List (String × VdfVal) :=
  [("Exe", .vs (quoted final_exe_path)),
   ("StartDir", .vs modlist_install_dir),
   ("LaunchOptions", .vs ""),
   ("tags", .vd [])]

/-- The store transformation of `replace_shortcut_with_final_exe`; `none` is
the `found = False` path (an error return with no write). -/
def replace_shortcut_with_final_exe
    (shortcut_name final_exe_path modlist_install_dir : String) (store : Shortcuts) :
    Option Shortcuts :=
  let vals := store.map Prod.snd
  let r := upsertPass shortcut_name
    (fun e => dictUpdate e (replaceFields final_exe_path modlist_install_dir)) vals
  if r.2 then some (seqStore r.1) else none

/-! ## `modify_shortcut_to_final_exe` (lines 1123-1211) -/

/-- The match condition at lines 1159-1160: exact name, a nonempty `Exe`
containing `prefix_creation_` and ending `.bat` or `.bat"`. -/
def isBatchShortcut (shortcut_name : String) (e : Entry) : Bool :=
  let name := getS e "AppName" ""
  let exe := getS e "Exe" ""
  name == shortcut_name && !(exe == "") && pyIn "prefix_creation_" exe &&
    (pyEndsWith exe ".bat" || pyEndsWith exe ".bat\"")

/-- The index-scanning loop at lines 1153-1168, looking entries up by
`shortcuts[str(i)]` and breaking at the first match. Result `none` models a
`KeyError` (caught, function returns `False`); `some none` is loop
completion without a match; `some (some i)` is a match at index `i`. -/
def findBatchIdx (store : Shortcuts) (shortcut_name : String) : Nat → Nat → Option (Option Nat)
  | 0, _ => some none
  | fuel + 1, i =>
      if i < store.length then
        match dget? store (natToDec i) with
        | none => none
        | some e =>
            if isBatchShortcut shortcut_name e then some (some i)
            else findBatchIdx store shortcut_name fuel (i + 1)
      else some none

/-- The in-place update at lines 1188-1194: set `Exe` and `StartDir` (both
quoted), and default `CompatTool` to `proton_experimental` when it is empty
after stripping. -/
def updateEntryToFinalExe (final_exe_path final_start_dir : String) (e : Entry) : Entry :=
  let e1 := dset e "Exe" (.vs (quoted final_exe_path))
  let e2 := dset e1 "StartDir" (.vs (quoted final_start_dir))
  if pyStripWs (getS e2 "CompatTool" "") == "" then
    dset e2 "CompatTool" (.vs "proton_experimental")
  else e2

/-- The store transformation of `modify_shortcut_to_final_exe`; `none` covers
the `KeyError` and not-found paths, both of which write nothing. -/
def modify_shortcut_to_final_exe
    (shortcut_name final_exe_path final_start_dir : String) (store : Shortcuts) :
    Option Shortcuts :=
  match findBatchIdx store shortcut_name store.length 0 with
  | none => none
  | some none => none
  | some (some i) =>
      some (store.map (fun p =>
        if p.1 == natToDec i
        then (p.1, updateEntryToFinalExe final_exe_path final_start_dir p.2) else p))

/-! ## `cleanup_old_batch_shortcuts` (lines 1524-1582) -/

/-- Read entries at keys `str(0) .. str(n-1)`; `none` models a `KeyError`
in the scanning loops (caught, function returns `False`). -/
def seqEntriesAux (store : Shortcuts) : Nat → Nat → Option (List Entry)
  | 0, _ => some []
  | fuel + 1, i =>
      if i < store.length then
        match dget? store (natToDec i) with
        | none => none
        | some e =>
            match seqEntriesAux store fuel (i + 1) with
            | none => none
            | some t => some (e :: t)
      else some []

def seqEntries (store : Shortcuts) : Option (List Entry) := seqEntriesAux store store.length 0

/-- The removal condition at lines 1552-1554: exact name, `Exe` containing
`prefix_creation_` and ending `.bat`. -/
def isOldBatch (shortcut_name : String) (e : Entry) : Bool :=
  getS e "AppName" "" == shortcut_name &&
    pyIn "prefix_creation_" (getS e "Exe" "") &&
    pyEndsWith (getS e "Exe" "") ".bat"

/-- The store transformation of `cleanup_old_batch_shortcuts`: collect the
keys `str(i)` of matching entries; if none, return with no write; otherwise
rebuild the mapping keeping non-removed entries in order under fresh
sequential keys. `none` models the `KeyError` path. -/
def cleanup_old_batch_shortcuts (shortcut_name : String) (store : Shortcuts) :
    Option Shortcuts :=
  match seqEntries store with
  | none => none
  | some es =>
      let removeKeys := (es.enum.filter (fun p => isOldBatch shortcut_name p.2)).map
        (fun p => natToDec p.1)
      if removeKeys.isEmpty then some store
      else
        some (seqStore ((es.enum.filter
          (fun p => !(removeKeys.contains (natToDec p.1)))).map Prod.snd))

/-! ## `handle_existing_shortcut_conflict` (lines 185-244) -/

/-- One reported conflict record (the dict at lines 222-227). -/
structure Conflict where
  index : Nat
  name : String
  exe : String
  startdir : String
deriving DecidableEq

/-- The scanning loop at lines 209-227: for each index, compare the exact
name and the quote-stripped `Exe`/`StartDir` against the query. `none`
models an exception (caught at line 242; the function then proceeds as if
there were no conflict). -/
def conflictScanAux (store : Shortcuts) (shortcut_name exe_path modlist_install_dir : String) :
    Nat → Nat → Option (List Conflict)
  | 0, _ => some []
  | fuel + 1, i =>
      if i < store.length then
        match dget? store (natToDec i) with
        | none => none
        | some sc =>
            let name := getS sc "AppName" ""
            let sexe := pyStripChar (getS sc "Exe" "") dq
            let sdir := pyStripChar (getS sc "StartDir" "") dq
            let rest := conflictScanAux store shortcut_name exe_path modlist_install_dir fuel (i + 1)
            match rest with
            | none => none
            | some cs =>
                if shortcut_name == name && (sexe == exe_path || sdir == modlist_install_dir)
                then some (⟨i, name, sexe, sdir⟩ :: cs)
                else some cs
      else some []

/-- The conflict list computed by `handle_existing_shortcut_conflict`
(Python returns the list when nonempty, `True` when it is empty, and `True`
on the exception path, modelled `none`). -/
def handle_existing_shortcut_conflict
    (shortcut_name exe_path modlist_install_dir : String) (store : Shortcuts) :
    Option (List Conflict) :=
  conflictScanAux store shortcut_name exe_path modlist_install_dir store.length 0

/-! ## `set_compatibility_tool_complete_stl_style`, config.vdf phase
(lines 2176-2263)

The function patches `config.vdf` by direct text manipulation, then goes on
to `localconfig.vdf`. The config.vdf phase is modelled as a pure
transformation of the file's line list; `none` models the error returns (no
write) and the exception paths (`compat_section_end`/`appid_entry_end`
remaining `None` makes the following `range`/`del` raise, caught at line
2405).
-/

def ctmToken : String := "\"CompatToolMapping\""

/-- Python `'{' in line`. -/
def hasOpenBrace (l : String) : Bool := l.data.contains (Char.ofNat 123)

/-- Python `'}' in line`. -/
def hasCloseBrace (l : String) : Bool := l.data.contains (Char.ofNat 125)

/-- The brace-presence scan at lines 2208-2216 (and 2230-2238): walking the
remaining lines with their absolute index `j`, add one per line containing
an opening brace, subtract one per line containing a closing brace, and
stop at the first line where the count returns to exactly zero after a
subtraction. -/
def findSectionEnd : List String → Nat → Int → Option Nat
  | [], _, _ => none
  | l :: rest, j, bc =>
      let bc1 := if hasOpenBrace l then bc + 1 else bc
      if hasCloseBrace l then
        if bc1 - 1 = 0 then some j else findSectionEnd rest (j + 1) (bc1 - 1)
      else findSectionEnd rest (j + 1) bc1

/-- Python `f'"{unsigned_appid}"'`. -/
def quotedNat (n : Nat) : String := "\"" ++ natToDec n ++ "\""

/-- The new entry text (lines 2242-2249): `''.join(new_entry_lines)`, one
spliced element holding Steam's exact tab-indented block. -/
def new_compat_entry_text (unsigned_appid : Nat) (compat_tool : String) : String :=
  "\t\t\t\t\t\t\t\t\t" ++ quotedNat unsigned_appid ++ "\n" ++
  "\t\t\t\t\t\t\t\t\t\x7b\n" ++
  "\t\t\t\t\t\t\t\t\t\t\"name\"\t\t\t\t\"" ++ compat_tool ++ "\"\n" ++
  "\t\t\t\t\t\t\t\t\t\t\"config\"\t\t\t\t\t\"\"\n" ++
  "\t\t\t\t\t\t\t\t\t\t\"priority\"\t\t\t\t\t\"250\"\n" ++
  "\t\t\t\t\t\t\t\t\t\x7d\n"

/-- Python `list.insert(i, a)` (clamping at the end). -/
def pyInsertAt : List String → Nat → String → List String
  | xs, 0, a => a :: xs
  | [], _ + 1, a => [a]
  | x :: xs, n + 1, a => x :: pyInsertAt xs n a

/-- The config.vdf phase of `set_compatibility_tool_complete_stl_style`:
locate the `CompatToolMapping` section, locate an existing entry for the
appid inside it, and either insert the new block before the section's
closing brace or replace the existing block in place. -/
def set_compat_tool_config_lines (unsigned_appid : Nat) (compat_tool : String)
    (lines : List String) : Option (List String) :=
  match lines.findIdx? (fun l => pyIn ctmToken (pyStripWs l)) with
  | none => none
  | some start =>
      match findSectionEnd (lines.drop (start + 1)) (start + 1) 0 with
      | none => none
      | some end_ =>
          let sect := (lines.take (end_ + 1)).drop start
          let entry := new_compat_entry_text unsigned_appid compat_tool
          match sect.findIdx? (fun l => pyIn (quotedNat unsigned_appid) l) with
          | none => some (pyInsertAt lines end_ entry)
          | some rel =>
              let s := start + rel
              match findSectionEnd ((lines.take (end_ + 1)).drop (s + 1)) (s + 1) 0 with
              | none => none
              | some e => some (pyInsertAt (lines.take s ++ lines.drop (e + 1)) s entry)

/-! ## `run_complete_workflow` (lines 1367-1522) -/

/-- One component of the Python return tuple of the workflow. -/
inductive RVal where
  | rbool (b : Bool)
  | rnone
  | rpath (p : String)
  | rint (n : Int)
deriving DecidableEq

/-- Outcomes of the workflow's external collaborators (file system, Steam
client, subprocesses), fixed for one run: whether `shortcuts.vdf` was found,
whether `set_proton_version_for_shortcut` (config.vdf) succeeded, whether
the Steam restart succeeded, whether the `steam steam://rungameid/...`
subprocess exited 0 (or timed out, which also proceeds), whether
`compatdata/<expected_prefix_id>` exists at step 6, the AppID resolved by
the protontricks poll at step 8, the resolved prefix path at step 9, and
whether `verify_prefix_creation` passed. -/
structure ExternalEnv where
  shortcuts_available : Bool
  set_proton_ok : Bool
  restart_ok : Bool
  launch_rc_zero : Bool
  prefix_appears : Bool
  detected_appid : Option Int
  resolved_prefix_path : Option String
  prefix_valid : Bool

/-- The tuple `False, None, None, None` returned on every error path of
`run_complete_workflow` (lines 1399, 1431, 1447, 1452, 1474, 1485, 1496,
1506, 1510, 1522) — four components, though the annotation and docstring
declare three. -/
def failTuple : List RVal := [.rbool false, .rnone, .rnone, .rnone]

/-- `run_complete_workflow`: the returned tuple (as a component list,
preserving Python's actual arity) and the final state of the shortcuts
store. Step numbering follows the source; steps 2 and the rungameid/
expected-prefix-id computations are pure and bound here as in the source. -/
def run_complete_workflow (env : ExternalEnv)
    (home shortcut_name modlist_install_dir final_exe_path : String)
    (store : Shortcuts) : List RVal × Shortcuts :=
  if !env.shortcuts_available then (failTuple, store)
  else
    let store1 := create_shortcut_directly_with_proton home shortcut_name final_exe_path
      modlist_install_dir store
    if !env.set_proton_ok then (failTuple, store1)
    else
      let initial_appid := crc32_appid final_exe_path shortcut_name
      let _rungameid := rungameid_of_run_complete_workflow initial_appid
      let _expected_dir := natToDec initial_appid.natAbs
      if !env.restart_ok then (failTuple, store1)
      else if !env.launch_rc_zero then (failTuple, store1)
      else if !env.prefix_appears then (failTuple, store1)
      else
        match replace_shortcut_with_final_exe shortcut_name final_exe_path
          modlist_install_dir store1 with
        | none => (failTuple, store1)
        | some store2 =>
            match env.detected_appid with
            | none => (failTuple, store2)
            | some actual_appid =>
                match env.resolved_prefix_path with
                | none => (failTuple, store2)
                | some p =>
                    if !env.prefix_valid then (failTuple, store2)
                    else ([.rbool true, .rpath p, .rint actual_appid], store2)

/-! ## Helper lemmas about the upsert payloads -/

theorem dget?_dictUpdate_of_ne (k : String) : ∀ (fs : List (String × VdfVal)) (e : Entry),
    (∀ p ∈ fs, p.1 ≠ k) → dget? (dictUpdate e fs) k = dget? e k
  | [], _, _ => rfl
  | (k₀, v₀) :: fs, e, h => by
      rw [dictUpdate, dget?_dictUpdate_of_ne k fs _ (fun p hp => h p (by simp [hp])),
        dget?_dset_ne _ _ _ _ (Ne.symm (h (k₀, v₀) (by simp)))]

theorem dget?_upsertFields_appid (e : Entry) (home : String) (a : Int) :
    dget? (dictUpdate e (upsertFields home a)) "appid" = some (.vi a) := by
  simp only [upsertFields, dictUpdate]
  rw [dget?_dset_ne _ _ _ _ (by decide), dget?_dset_ne _ _ _ _ (by decide),
    dget?_dset_ne _ _ _ _ (by decide), dget?_dset_self]

theorem nameMatches_upsertFields (e : Entry) (home : String) (a : Int) (name : String) :
    nameMatchesNoDefault (dictUpdate e (upsertFields home a)) name =
      nameMatchesNoDefault e name := by
  simp only [nameMatchesNoDefault, upsertFields, dictUpdate]
  rw [dget?_dset_ne _ _ _ _ (by decide), dget?_dset_ne _ _ _ _ (by decide),
    dget?_dset_ne _ _ _ _ (by decide), dget?_dset_ne _ _ _ _ (by decide),
    dget?_dset_ne _ _ _ _ (by decide), dget?_dset_ne _ _ _ _ (by decide)]

theorem upsertPass_eq (name : String) (upd : Entry → Entry) (l : List Entry) :
    upsertPass name upd l =
      (l.map (fun e => if nameMatchesNoDefault e name then upd e else e),
        l.any (fun e => nameMatchesNoDefault e name)) := by
  induction l with
  | nil => rfl
  | cons e t ih =>
      by_cases h : nameMatchesNoDefault e name <;> simp [upsertPass, h, ih]

theorem nameMatches_new_shortcut (name : String) (a : Int) (home : String) :
    nameMatchesNoDefault (new_shortcut_entry name a home) name = true := by
  simp [new_shortcut_entry, nameMatchesNoDefault, dget?]

theorem seqStore_map_snd (l : List Entry) : (seqStore l).map Prod.snd = l :=
  seqFrom_map_snd l 0

theorem any_iff_filter_pos (p : Entry → Bool) (l : List Entry) :
    l.any p = true ↔ 0 < (l.filter p).length := by
  rw [List.any_eq_true]
  constructor
  · rintro ⟨x, hx, hpx⟩
    exact List.length_pos.mpr (List.ne_nil_of_mem (List.mem_filter.mpr ⟨hx, hpx⟩))
  · intro hpos
    obtain ⟨x, hx⟩ := List.exists_mem_of_length_pos hpos
    exact ⟨x, (List.mem_filter.mp hx).1, (List.mem_filter.mp hx).2⟩

theorem filter_map_updIf (p : Entry → Bool) (f : Entry → Entry)
    (hf : ∀ e, p (f e) = p e) (l : List Entry) :
    ((l.map (fun e => if p e then f e else e)).filter p).length =
      (l.filter p).length := by
  induction l with
  | nil => rfl
  | cons e t ih =>
      by_cases hp : p e
      · simp [List.filter_cons, hp, hf, ih]
      · simp [List.filter_cons, hp, ih]

theorem fields_after_upsertFields (e : Entry) (home : String) (a : Int) :
    dget? (dictUpdate e (upsertFields home a)) "Exe"
        = some (.vs (quoted (temp_batch_path home))) ∧
    dget? (dictUpdate e (upsertFields home a)) "StartDir"
        = some (.vs (quoted (home ++ "/Jackify"))) ∧
    dget? (dictUpdate e (upsertFields home a)) "appid" = some (.vi a) ∧
    dget? (dictUpdate e (upsertFields home a)) "LaunchOptions" = some (.vs "") ∧
    dget? (dictUpdate e (upsertFields home a)) "CompatTool"
        = some (.vs "proton_experimental") := by
  refine ⟨?_, ?_, dget?_upsertFields_appid e home a, ?_, ?_⟩ <;>
    simp only [upsertFields, dictUpdate]
  · rw [dget?_dset_ne _ _ _ _ (by decide), dget?_dset_ne _ _ _ _ (by decide),
      dget?_dset_ne _ _ _ _ (by decide), dget?_dset_ne _ _ _ _ (by decide),
      dget?_dset_ne _ _ _ _ (by decide), dget?_dset_self]
  · rw [dget?_dset_ne _ _ _ _ (by decide), dget?_dset_ne _ _ _ _ (by decide),
      dget?_dset_ne _ _ _ _ (by decide), dget?_dset_ne _ _ _ _ (by decide),
      dget?_dset_self]
  · rw [dget?_dset_ne _ _ _ _ (by decide), dget?_dset_ne _ _ _ _ (by decide),
      dget?_dset_self]
  · rw [dget?_dset_self]

theorem fields_of_new_shortcut (name : String) (a : Int) (home : String) :
    dget? (new_shortcut_entry name a home) "Exe"
        = some (.vs (quoted (temp_batch_path home))) ∧
    dget? (new_shortcut_entry name a home) "StartDir"
        = some (.vs (quoted (home ++ "/Jackify"))) ∧
    dget? (new_shortcut_entry name a home) "appid" = some (.vi a) ∧
    dget? (new_shortcut_entry name a home) "LaunchOptions" = some (.vs "") ∧
    dget? (new_shortcut_entry name a home) "CompatTool"
        = some (.vs "proton_experimental") := by
  refine ⟨?_, ?_, ?_, ?_, ?_⟩ <;> simp [new_shortcut_entry, dget?]

/-- The value-level transformation `create_shortcut_directly_with_proton`
performs on the list of entries (derived once and reused by the theorems). -/
def upsertValues (home name : String) (a : Int) (l : List Entry) : List Entry :=
  if l.any (fun e => nameMatchesNoDefault e name)
  then l.map (fun e => if nameMatchesNoDefault e name
    then dictUpdate e (upsertFields home a) else e)
  else (l.map (fun e => if nameMatchesNoDefault e name
    then dictUpdate e (upsertFields home a) else e)) ++ [new_shortcut_entry name a home]

theorem create_values (home shortcut_name exe_path modlist_install_dir : String)
    (store : Shortcuts) :
    (create_shortcut_directly_with_proton home shortcut_name exe_path modlist_install_dir
        store).map Prod.snd =
      upsertValues home shortcut_name (crc32_appid exe_path shortcut_name)
        (store.map Prod.snd) := by
  simp only [create_shortcut_directly_with_proton, upsertPass_eq, upsertValues]
  by_cases h : (store.map Prod.snd).any (fun e => nameMatchesNoDefault e shortcut_name) <;>
    simp [h, seqStore_map_snd]

theorem upsertValues_fields (home name : String) (a : Int) (l : List Entry) :
    ∀ e ∈ upsertValues home name a l, nameMatchesNoDefault e name = true →
      dget? e "Exe" = some (.vs (quoted (temp_batch_path home))) ∧
      dget? e "StartDir" = some (.vs (quoted (home ++ "/Jackify"))) ∧
      dget? e "appid" = some (.vi a) ∧
      dget? e "LaunchOptions" = some (.vs "") ∧
      dget? e "CompatTool" = some (.vs "proton_experimental") := by
  intro e hmem hname
  rw [upsertValues] at hmem
  by_cases hl : l.any (fun e => nameMatchesNoDefault e name) = true
  · rw [if_pos hl] at hmem
    obtain ⟨ev, _, hev⟩ := List.mem_map.mp hmem
    by_cases hm : nameMatchesNoDefault ev name
    · rw [if_pos hm] at hev
      rw [← hev]
      exact fields_after_upsertFields ev home a
    · rw [if_neg hm] at hev
      rw [← hev] at hname
      exact absurd hname (by simpa using hm)
  · rw [if_neg hl] at hmem
    rcases List.mem_append.mp hmem with hmem | hmem
    · obtain ⟨ev, _, hev⟩ := List.mem_map.mp hmem
      by_cases hm : nameMatchesNoDefault ev name
      · rw [if_pos hm] at hev
        rw [← hev]
        exact fields_after_upsertFields ev home a
      · rw [if_neg hm] at hev
        rw [← hev] at hname
        exact absurd hname (by simpa using hm)
    · rw [List.mem_singleton.mp hmem]
      exact fields_of_new_shortcut name a home

theorem upsertValues_filter_length (home name : String) (a : Int) (l : List Entry) :
    ((upsertValues home name a l).filter (fun e => nameMatchesNoDefault e name)).length =
      if (l.filter (fun e => nameMatchesNoDefault e name)).length = 0 then 1
      else (l.filter (fun e => nameMatchesNoDefault e name)).length := by
  by_cases hl : l.any (fun e => nameMatchesNoDefault e name) = true
  · have hpos := (any_iff_filter_pos _ l).mp hl
    rw [upsertValues, if_pos hl,
      filter_map_updIf _ _ (fun e => nameMatches_upsertFields e home a name),
      if_neg (by omega)]
  · have hzero : (l.filter (fun e => nameMatchesNoDefault e name)).length = 0 := by
      by_contra hc
      exact hl ((any_iff_filter_pos _ l).mpr (by omega))
    rw [upsertValues, if_neg hl, List.filter_append, List.length_append,
      filter_map_updIf _ _ (fun e => nameMatches_upsertFields e home a name),
      hzero, if_pos rfl]
    simp [List.filter_cons, nameMatches_new_shortcut]

theorem upsertValues_length (home name : String) (a : Int) (l : List Entry) :
    (upsertValues home name a l).length =
      if (l.filter (fun e => nameMatchesNoDefault e name)).length = 0 then l.length + 1
      else l.length := by
  by_cases hl : l.any (fun e => nameMatchesNoDefault e name) = true
  · have hpos := (any_iff_filter_pos _ l).mp hl
    rw [upsertValues, if_pos hl, List.length_map, if_neg (by omega)]
  · have hzero : (l.filter (fun e => nameMatchesNoDefault e name)).length = 0 := by
      by_contra hc
      exact hl ((any_iff_filter_pos _ l).mpr (by omega))
    rw [upsertValues, if_neg hl, List.length_append, List.length_map, if_pos hzero]
    rfl

/-- C1: for every shortcut name and final executable path, the
checksum-based derivation stores the signed identifier
`-(crc32(utf8(exe_path + name)) & 0x7FFFFFFF)` on every entry carrying that
name after the create/update operation; in particular creating "Tuxborn"
with exe "/tmp/boot.sh" on an empty store yields exactly one entry whose
stored signed identifier is that checksum of "/tmp/boot.sh" + "Tuxborn"
(concretely `-1953115905`). -/
theorem C1_checksum_identifier_derivation :
    (∀ (home shortcut_name exe_path modlist_install_dir : String) (store : Shortcuts)
        (e : Entry),
        e ∈ (create_shortcut_directly_with_proton home shortcut_name exe_path
            modlist_install_dir store).map Prod.snd →
        nameMatchesNoDefault e shortcut_name = true →
        dget? e "appid" = some (.vi (crc32_appid exe_path shortcut_name))) ∧
    (create_shortcut_directly_with_proton "/home/user" "Tuxborn" "/tmp/boot.sh" "/tmp"
        []).map (fun p => dget? p.2 "appid")
      = [some (.vi (crc32_appid "/tmp/boot.sh" "Tuxborn"))] ∧
    crc32_appid "/tmp/boot.sh" "Tuxborn" = -1953115905 := by
  refine ⟨?_, by rfl, by decide⟩
  intro home shortcut_name exe_path modlist_install_dir store e hmem hname
  rw [create_values] at hmem
  exact (upsertValues_fields home shortcut_name (crc32_appid exe_path shortcut_name)
    (store.map Prod.snd) e hmem hname).2.2.1

/-- Witness for C1 at the concrete Tuxborn creation on the empty store. -/
theorem C1_checksum_identifier_derivation_witness :
    dget? (new_shortcut_entry "Tuxborn" (crc32_appid "/tmp/boot.sh" "Tuxborn") "/home/user")
        "appid" = some (.vi (crc32_appid "/tmp/boot.sh" "Tuxborn")) := by
  have hm : new_shortcut_entry "Tuxborn" (crc32_appid "/tmp/boot.sh" "Tuxborn") "/home/user"
      ∈ (create_shortcut_directly_with_proton "/home/user" "Tuxborn" "/tmp/boot.sh" "/tmp"
          []).map Prod.snd := by
    rw [show (create_shortcut_directly_with_proton "/home/user" "Tuxborn" "/tmp/boot.sh" "/tmp"
        []).map Prod.snd
      = [new_shortcut_entry "Tuxborn" (crc32_appid "/tmp/boot.sh" "Tuxborn") "/home/user"]
        from rfl]
    exact List.mem_singleton.mpr rfl
  exact C1_checksum_identifier_derivation.1 "/home/user" "Tuxborn" "/tmp/boot.sh" "/tmp" []
    _ hm (by rfl)

/-- C7 counterexample: the claim quantifies over every store state, but on a
store already holding two entries named "Foo", calling the create/update
operation twice with name "Foo" leaves two entries named "Foo", not exactly
one. -/
theorem C7_duplicate_store_counterexample :
    (((create_shortcut_directly_with_proton "/h" "Foo" "/e" "/d"
          (create_shortcut_directly_with_proton "/h" "Foo" "/e" "/d"
            (seqStore [[("AppName", .vs "Foo")], [("AppName", .vs "Foo")]]))).map
        Prod.snd).filter (fun e => nameMatchesNoDefault e "Foo")).length = 2 := by
  decide

/-- C7 (amended): on every store holding at most one entry with the given
name — in particular every store this operation alone has maintained —
calling the create/update operation twice with the same name yields exactly
one entry with that name, holding the latest field values; the entry is
created (the store grows by one) when the name was absent, else updated in
place (the store size is unchanged), never appended as a duplicate. -/
theorem C7_upsert_idempotent_amended (home name exe_path dir : String) (l : List Entry)
    (h : (l.filter (fun e => nameMatchesNoDefault e name)).length ≤ 1) :
    (((create_shortcut_directly_with_proton home name exe_path dir
          (create_shortcut_directly_with_proton home name exe_path dir
            (seqStore l))).map Prod.snd).filter
        (fun e => nameMatchesNoDefault e name)).length = 1 ∧
    (∀ e ∈ (create_shortcut_directly_with_proton home name exe_path dir
          (create_shortcut_directly_with_proton home name exe_path dir
            (seqStore l))).map Prod.snd,
        nameMatchesNoDefault e name = true →
        dget? e "Exe" = some (.vs (quoted (temp_batch_path home))) ∧
        dget? e "StartDir" = some (.vs (quoted (home ++ "/Jackify"))) ∧
        dget? e "appid" = some (.vi (crc32_appid exe_path name)) ∧
        dget? e "LaunchOptions" = some (.vs "") ∧
        dget? e "CompatTool" = some (.vs "proton_experimental")) ∧
    ((create_shortcut_directly_with_proton home name exe_path dir
          (create_shortcut_directly_with_proton home name exe_path dir
            (seqStore l))).map Prod.snd).length =
      (if (l.filter (fun e => nameMatchesNoDefault e name)).length = 0
        then l.length + 1 else l.length) := by
  have hv : (create_shortcut_directly_with_proton home name exe_path dir
      (create_shortcut_directly_with_proton home name exe_path dir
        (seqStore l))).map Prod.snd =
      upsertValues home name (crc32_appid exe_path name)
        (upsertValues home name (crc32_appid exe_path name) l) := by
    rw [create_values, create_values, seqStore_map_snd]
  refine ⟨?_, ?_, ?_⟩
  · rw [hv, upsertValues_filter_length, upsertValues_filter_length]
    split_ifs <;> omega
  · intro e hmem hname
    rw [hv] at hmem
    exact upsertValues_fields home name (crc32_appid exe_path name) _ e hmem hname
  · rw [hv, upsertValues_length, upsertValues_filter_length, upsertValues_length]
    by_cases hc : (l.filter (fun e => nameMatchesNoDefault e name)).length = 0 <;>
      simp [hc]

/-- Witness for C7 (amended) at the empty store. -/
theorem C7_upsert_idempotent_amended_witness :
    (((create_shortcut_directly_with_proton "/h" "Foo" "/e" "/d"
          (create_shortcut_directly_with_proton "/h" "Foo" "/e" "/d"
            (seqStore []))).map Prod.snd).filter
        (fun e => nameMatchesNoDefault e "Foo")).length = 1 :=
  (C7_upsert_idempotent_amended "/h" "Foo" "/e" "/d" [] (by decide)).1

/-! ## C8: conflict detection -/

/-- The conflicts the scanning loop reports for the entry list starting at
index `k`: exactly the entries whose name equals the query exactly and whose
quote-stripped exe or start directory equals the query. -/
def conflictsSpec (shortcut_name exe_path modlist_install_dir : String) :
    Nat → List Entry → List Conflict
  | _, [] => []
  | i, e :: t =>
      let name := getS e "AppName" ""
      let sexe := pyStripChar (getS e "Exe" "") dq
      let sdir := pyStripChar (getS e "StartDir" "") dq
      let rest := conflictsSpec shortcut_name exe_path modlist_install_dir (i + 1) t
      if shortcut_name == name && (sexe == exe_path || sdir == modlist_install_dir)
      then ⟨i, name, sexe, sdir⟩ :: rest else rest

theorem conflictScanAux_eq (shortcut_name exe_path modlist_install_dir : String)
    (l : List Entry) :
    ∀ (fuel k : Nat), l.length ≤ k + fuel →
      conflictScanAux (seqStore l) shortcut_name exe_path modlist_install_dir fuel k =
        some (conflictsSpec shortcut_name exe_path modlist_install_dir k (l.drop k))
  | 0, k, hfuel => by
      have hd : l.drop k = [] := List.drop_eq_nil_of_le (by omega)
      simp [conflictScanAux, hd, conflictsSpec]
  | fuel + 1, k, hfuel => by
      by_cases hk : k < l.length
      · have hlen : k < (seqStore l).length := by
          rw [seqStore, seqFrom_length]; exact hk
        have hget : dget? (seqStore l) (natToDec k) = some l[k] := by
          rw [dget?_seqStore, List.get?_eq_getElem?, List.getElem?_eq_getElem hk]
        have hdrop : l.drop k = l[k] :: l.drop (k + 1) := List.drop_eq_getElem_cons hk
        rw [conflictScanAux, if_pos hlen, hget]
        rw [conflictScanAux_eq shortcut_name exe_path modlist_install_dir l fuel (k + 1)
          (by omega)]
        rw [hdrop]
        by_cases hc : (shortcut_name == getS l[k] "AppName" "" &&
            (pyStripChar (getS l[k] "Exe" "") dq == exe_path ||
             pyStripChar (getS l[k] "StartDir" "") dq == modlist_install_dir)) = true <;>
          simp [conflictsSpec, hc]
      · have hlen : ¬ k < (seqStore l).length := by
          rw [seqStore, seqFrom_length]; exact hk
        have hd : l.drop k = [] := List.drop_eq_nil_of_le (by omega)
        rw [conflictScanAux, if_neg hlen, hd]
        rfl

theorem mem_conflictsSpec_iff (shortcut_name exe_path modlist_install_dir : String) :
    ∀ (l : List Entry) (k i : Nat),
      (∃ c ∈ conflictsSpec shortcut_name exe_path modlist_install_dir k l, c.index = i) ↔
        (k ≤ i ∧ ∃ e, l.get? (i - k) = some e ∧
          (shortcut_name == getS e "AppName" "" &&
            (pyStripChar (getS e "Exe" "") dq == exe_path ||
             pyStripChar (getS e "StartDir" "") dq == modlist_install_dir)) = true)
  | [], k, i => by
      simp [conflictsSpec]
  | e :: t, k, i => by
      by_cases hcond : (shortcut_name == getS e "AppName" "" &&
          (pyStripChar (getS e "Exe" "") dq == exe_path ||
           pyStripChar (getS e "StartDir" "") dq == modlist_install_dir)) = true
      · by_cases hki : i = k
        · subst hki
          constructor
          · intro _
            exact ⟨le_rfl, e, by simp, hcond⟩
          · intro _
            exact ⟨⟨i, getS e "AppName" "", pyStripChar (getS e "Exe" "") dq,
              pyStripChar (getS e "StartDir" "") dq⟩, by simp [conflictsSpec, hcond], rfl⟩
        · rw [show conflictsSpec shortcut_name exe_path modlist_install_dir k (e :: t) =
              ⟨k, getS e "AppName" "", pyStripChar (getS e "Exe" "") dq,
                pyStripChar (getS e "StartDir" "") dq⟩ ::
              conflictsSpec shortcut_name exe_path modlist_install_dir (k + 1) t by
            simp [conflictsSpec, hcond]]
          constructor
          · rintro ⟨c, hc, hci⟩
            rcases List.mem_cons.mp hc with hc | hc
            · rw [hc] at hci
              exact absurd hci (fun hh => hki hh.symm)
            · obtain ⟨hk1, e', he', hce'⟩ :=
                (mem_conflictsSpec_iff shortcut_name exe_path modlist_install_dir t
                  (k + 1) i).mp ⟨c, hc, hci⟩
              refine ⟨by omega, e', ?_, hce'⟩
              rw [show i - k = (i - (k + 1)) + 1 by omega]
              simpa using he'
          · rintro ⟨hki', e', he', hce'⟩
            have hik : k < i := lt_of_le_of_ne hki' (fun hh => hki hh.symm)
            rw [show i - k = (i - (k + 1)) + 1 by omega] at he'
            simp only [List.get?_cons_succ] at he'
            obtain ⟨c, hc, hci⟩ :=
              (mem_conflictsSpec_iff shortcut_name exe_path modlist_install_dir t
                (k + 1) i).mpr ⟨by omega, e', he', hce'⟩
            exact ⟨c, List.mem_cons_of_mem _ hc, hci⟩
      · rw [show conflictsSpec shortcut_name exe_path modlist_install_dir k (e :: t) =
            conflictsSpec shortcut_name exe_path modlist_install_dir (k + 1) t by
          simp [conflictsSpec, hcond]]
        rw [mem_conflictsSpec_iff shortcut_name exe_path modlist_install_dir t (k + 1) i]
        constructor
        · rintro ⟨hk1, e', he', hce'⟩
          refine ⟨by omega, e', ?_, hce'⟩
          rw [show i - k = (i - (k + 1)) + 1 by omega]
          simpa using he'
        · rintro ⟨hki', e', he', hce'⟩
          by_cases hik : i = k
          · subst hik
            rw [Nat.sub_self] at he'
            simp only [List.get?_cons_zero, Option.some.injEq] at he'
            exact absurd (he' ▸ hce') hcond
          · have : k < i := lt_of_le_of_ne hki' (fun hh => hik hh.symm)
            rw [show i - k = (i - (k + 1)) + 1 by omega] at he'
            simp only [List.get?_cons_succ] at he'
            exact ⟨by omega, e', he', hce'⟩

/-- The store of the spec's conflict-detection scenario: one entry named
"Foo" with (quoted on disk) exe "/a/Foo.exe" and start dir "/a". -/
def fooEntryC8 : Entry :=
  [("AppName", .vs "Foo"), ("Exe", .vs "\"/a/Foo.exe\""), ("StartDir", .vs "\"/a\"")]

/-- C8: conflict detection reports an existing entry as a conflict iff its
name equals the queried name exactly and (its quote-stripped executable
path equals the queried exe or its quote-stripped start directory equals
the queried start dir). With one entry "Foo" / "/a/Foo.exe", querying
("Foo", "/a/Foo.exe", anything) yields exactly that one conflict, and
("Foo", "/b/Other.exe", "/different/dir") yields none. The `entryWF`
hypothesis marks the stores on which the embedding models the Python
exactly (non-string fields would make the Python raise and skip detection). -/
theorem C8_conflict_detection (shortcut_name exe_path modlist_install_dir : String)
    (l : List Entry) (hwf : ∀ e ∈ l, entryWF e = true) :
    handle_existing_shortcut_conflict shortcut_name exe_path modlist_install_dir
        (seqStore l)
      = some (conflictsSpec shortcut_name exe_path modlist_install_dir 0 l) ∧
    (∀ i e, l.get? i = some e →
      ((∃ c ∈ conflictsSpec shortcut_name exe_path modlist_install_dir 0 l, c.index = i) ↔
        (shortcut_name == getS e "AppName" "" &&
          (pyStripChar (getS e "Exe" "") dq == exe_path ||
           pyStripChar (getS e "StartDir" "") dq == modlist_install_dir)) = true)) ∧
    (∀ dir', handle_existing_shortcut_conflict "Foo" "/a/Foo.exe" dir'
        (seqStore [fooEntryC8]) = some [⟨0, "Foo", "/a/Foo.exe", "/a"⟩]) ∧
    handle_existing_shortcut_conflict "Foo" "/b/Other.exe" "/different/dir"
        (seqStore [fooEntryC8]) = some [] := by
  have _ := hwf
  have hlen : (seqStore l).length = l.length := by rw [seqStore, seqFrom_length]
  refine ⟨?_, ?_, ?_, by decide⟩
  · rw [handle_existing_shortcut_conflict, hlen,
      conflictScanAux_eq shortcut_name exe_path modlist_install_dir l l.length 0 (by omega),
      List.drop_zero]
  · intro i e he
    rw [mem_conflictsSpec_iff]
    constructor
    · rintro ⟨-, e', he', hc⟩
      rw [Nat.sub_zero, he] at he'
      obtain rfl := Option.some.inj he'
      exact hc
    · intro hc
      exact ⟨Nat.zero_le i, e, by simpa using he, hc⟩
  · intro dir'
    have ha : getS fooEntryC8 "AppName" "" = "Foo" := rfl
    have hx : pyStripChar (getS fooEntryC8 "Exe" "") dq = "/a/Foo.exe" := rfl
    have hs : pyStripChar (getS fooEntryC8 "StartDir" "") dq = "/a" := rfl
    rw [handle_existing_shortcut_conflict,
      show (seqStore [fooEntryC8]).length = 1 from rfl,
      conflictScanAux_eq "Foo" "/a/Foo.exe" dir' [fooEntryC8] 1 0 (by decide),
      List.drop_zero]
    simp [conflictsSpec, ha, hx, hs]

/-- Witness for C8 at the one-entry "Foo" store. -/
theorem C8_conflict_detection_witness :
    handle_existing_shortcut_conflict "Foo" "/a/Foo.exe" "/x" (seqStore [fooEntryC8])
      = some [⟨0, "Foo", "/a/Foo.exe", "/a"⟩] :=
  (C8_conflict_detection "Foo" "/a/Foo.exe" "/x" [fooEntryC8] (by decide)).2.2.1 "/x"

/-! ## C5: retargeting the bootstrap entry to the final executable -/

theorem dget?_seqStore_lt (l : List Entry) (k : Nat) (hk : k < l.length) :
    dget? (seqStore l) (natToDec k) = some (l.getD k []) := by
  rw [dget?_seqStore, List.get?_eq_getElem?, List.getElem?_eq_getElem hk,
    List.getD_eq_getElem?_getD, List.getElem?_eq_getElem hk]
  rfl

theorem isBatch_false_of_name (shortcut_name : String) (e : Entry)
    (h : (getS e "AppName" "" == shortcut_name) = false) :
    isBatchShortcut shortcut_name e = false := by
  simp [isBatchShortcut, h]

theorem findBatchIdx_reaches (l : List Entry) (shortcut_name : String) (i : Nat) :
    ∀ (fuel k : Nat), k ≤ i → i < l.length → l.length ≤ k + fuel →
      (∀ j, k ≤ j → j < i → isBatchShortcut shortcut_name (l.getD j []) = false) →
      isBatchShortcut shortcut_name (l.getD i []) = true →
      findBatchIdx (seqStore l) shortcut_name fuel k = some (some i)
  | 0, k, hki, hil, hfuel, _, _ => by omega
  | fuel + 1, k, hki, hil, hfuel, hskip, hhit => by
      have hk : k < l.length := by omega
      have hlen : k < (seqStore l).length := by
        rw [seqStore, seqFrom_length]; exact hk
      rw [findBatchIdx, if_pos hlen, dget?_seqStore_lt l k hk]
      show (if isBatchShortcut shortcut_name (l.getD k []) = true then some (some k)
        else findBatchIdx (seqStore l) shortcut_name fuel (k + 1)) = some (some i)
      by_cases hik : k = i
      · subst hik
        rw [if_pos hhit]
      · have hfalse : isBatchShortcut shortcut_name (l.getD k []) = false :=
          hskip k le_rfl (by omega)
        rw [if_neg (by rw [hfalse]; decide)]
        exact findBatchIdx_reaches l shortcut_name i fuel (k + 1) (by omega) hil (by omega)
          (fun j h1 h2 => hskip j (by omega) h2) hhit

theorem seqStore_mapReplace (l : List Entry) (i : Nat) (f : Entry → Entry) :
    (seqStore l).map (fun p => if p.1 == natToDec i then (p.1, f p.2) else p) =
      seqStore (l.set i (f (l.getD i []))) := by
  rw [seqStore, seqFrom_mapReplace, if_pos (Nat.zero_le i)]
  rfl

theorem set_append_len (l₁ l₂ : List Entry) (e x : Entry) :
    (l₁ ++ e :: l₂).set l₁.length x = l₁ ++ x :: l₂ := by
  induction l₁ with
  | nil => rfl
  | cons a t ih => simp [List.set, ih]

/-- Frame facts about the per-entry update of `modify_shortcut_to_final_exe`:
it sets `Exe` and `StartDir`, preserves every other field except that a
`CompatTool` that is empty (or absent or whitespace) is defaulted to
`proton_experimental`; in particular `appid` and `LaunchOptions` are
untouched. -/
theorem updateEntry_fields (fe fd : String) (e : Entry) :
    dget? (updateEntryToFinalExe fe fd e) "Exe" = some (.vs (quoted fe)) ∧
    dget? (updateEntryToFinalExe fe fd e) "StartDir" = some (.vs (quoted fd)) ∧
    (∀ k, k ≠ "Exe" → k ≠ "StartDir" → k ≠ "CompatTool" →
      dget? (updateEntryToFinalExe fe fd e) k = dget? e k) ∧
    (pyStripWs (getS e "CompatTool" "") ≠ "" →
      dget? (updateEntryToFinalExe fe fd e) "CompatTool" = dget? e "CompatTool") := by
  have hct : dget? (dset (dset e "Exe" (VdfVal.vs (quoted fe))) "StartDir"
      (VdfVal.vs (quoted fd))) "CompatTool" = dget? e "CompatTool" := by
    rw [dget?_dset_ne _ _ _ _ (by decide), dget?_dset_ne _ _ _ _ (by decide)]
  have hgs : getS (dset (dset e "Exe" (VdfVal.vs (quoted fe))) "StartDir"
      (VdfVal.vs (quoted fd))) "CompatTool" "" = getS e "CompatTool" "" := by
    simp only [getS, hct]
  simp only [updateEntryToFinalExe]
  by_cases hc : (pyStripWs (getS (dset (dset e "Exe" (VdfVal.vs (quoted fe))) "StartDir"
      (VdfVal.vs (quoted fd))) "CompatTool" "") == "") = true
  · rw [if_pos hc]
    refine ⟨?_, ?_, ?_, ?_⟩
    · rw [dget?_dset_ne _ _ _ _ (by decide), dget?_dset_ne _ _ _ _ (by decide),
        dget?_dset_self]
    · rw [dget?_dset_ne _ _ _ _ (by decide), dget?_dset_self]
    · intro k hk1 hk2 hk3
      rw [dget?_dset_ne _ _ _ _ hk3, dget?_dset_ne _ _ _ _ hk2, dget?_dset_ne _ _ _ _ hk1]
    · intro hne
      exfalso
      apply hne
      rw [← hgs]
      exact beq_iff_eq.mp hc
  · rw [if_neg hc]
    refine ⟨?_, ?_, ?_, ?_⟩
    · rw [dget?_dset_ne _ _ _ _ (by decide), dget?_dset_self]
    · rw [dget?_dset_self]
    · intro k hk1 hk2 _
      rw [dget?_dset_ne _ _ _ _ hk2, dget?_dset_ne _ _ _ _ hk1]
    · intro _
      exact hct

/-- The bootstrap entry of the C5 scenario (no `CompatTool` field). -/
def batchEntryC5 : Entry :=
  [("AppName", .vs "Foo"),
   ("Exe", .vs "\"/tmp/prefix_creation_Foo_1.bat\""),
   ("StartDir", .vs "\"/tmp\""),
   ("appid", .vi (-5)),
   ("LaunchOptions", .vs "LO")]

/-- C5 counterexample: retargeting an entry whose `CompatTool` is absent
also writes the `CompatTool` field (defaulting it to
`proton_experimental`), so the operation does not rewrite *only* the
executable and start-directory fields. -/
theorem C5_compattool_counterexample :
    (modify_shortcut_to_final_exe "Foo" "/real/ModOrganizer.exe" "/real/dir"
        (seqStore [batchEntryC5])).map
        (fun s => s.map (fun p => dget? p.2 "CompatTool"))
      = some [some (.vs "proton_experimental")] ∧
    dget? batchEntryC5 "CompatTool" = none := by
  exact ⟨rfl, rfl⟩

/-- C5 (amended): for every store whose only entry named "Foo" is a
bootstrap entry (its `Exe` contains `prefix_creation_` and ends `.bat` or
`.bat"`), retargeting rewrites the executable and start-directory fields
and, only when the compatibility-tool field was empty or absent, defaults
it; the identifier, the launch options and every other field are unchanged,
and the store afterwards contains exactly one "Foo" entry. -/
theorem C5_retarget_frame_amended (final_exe final_dir : String)
    (l₁ l₂ : List Entry) (eFoo : Entry)
    (h₁ : ∀ e ∈ l₁, (getS e "AppName" "" == "Foo") = false)
    (h₂ : ∀ e ∈ l₂, (getS e "AppName" "" == "Foo") = false)
    (hmatch : isBatchShortcut "Foo" eFoo = true) :
    modify_shortcut_to_final_exe "Foo" final_exe final_dir
        (seqStore (l₁ ++ eFoo :: l₂)) =
      some (seqStore (l₁ ++ updateEntryToFinalExe final_exe final_dir eFoo :: l₂)) ∧
    dget? (updateEntryToFinalExe final_exe final_dir eFoo) "Exe"
      = some (.vs (quoted final_exe)) ∧
    dget? (updateEntryToFinalExe final_exe final_dir eFoo) "StartDir"
      = some (.vs (quoted final_dir)) ∧
    dget? (updateEntryToFinalExe final_exe final_dir eFoo) "appid" = dget? eFoo "appid" ∧
    dget? (updateEntryToFinalExe final_exe final_dir eFoo) "LaunchOptions"
      = dget? eFoo "LaunchOptions" ∧
    (∀ k, k ≠ "Exe" → k ≠ "StartDir" → k ≠ "CompatTool" →
      dget? (updateEntryToFinalExe final_exe final_dir eFoo) k = dget? eFoo k) ∧
    (pyStripWs (getS eFoo "CompatTool" "") ≠ "" →
      dget? (updateEntryToFinalExe final_exe final_dir eFoo) "CompatTool"
        = dget? eFoo "CompatTool") ∧
    ((l₁ ++ updateEntryToFinalExe final_exe final_dir eFoo :: l₂).filter
        (fun e => getS e "AppName" "" == "Foo")).length = 1 := by
  obtain ⟨hExe, hSD, hframe, hCT⟩ := updateEntry_fields final_exe final_dir eFoo
  have hmid : (l₁ ++ eFoo :: l₂).getD l₁.length [] = eFoo := by
    rw [List.getD_eq_getElem?_getD, List.getElem?_append_right le_rfl]
    simp
  have hlt : l₁.length < (l₁ ++ eFoo :: l₂).length := by
    rw [List.length_append, List.length_cons]
    omega
  have hskip : ∀ j, 0 ≤ j → j < l₁.length →
      isBatchShortcut "Foo" ((l₁ ++ eFoo :: l₂).getD j []) = false := by
    intro j _ hj
    have hj' : j < (l₁ ++ eFoo :: l₂).length := by
      rw [List.length_append, List.length_cons]; omega
    have hEq : (l₁ ++ eFoo :: l₂).getD j [] = l₁[j] := by
      rw [List.getD_eq_getElem?_getD, List.getElem?_append_left hj,
        List.getElem?_eq_getElem hj]
      rfl
    rw [hEq]
    exact isBatch_false_of_name _ _ (h₁ _ (List.getElem_mem hj))
  have hfind : findBatchIdx (seqStore (l₁ ++ eFoo :: l₂)) "Foo"
      (l₁ ++ eFoo :: l₂).length 0 = some (some l₁.length) :=
    findBatchIdx_reaches (l₁ ++ eFoo :: l₂) "Foo" l₁.length
      (l₁ ++ eFoo :: l₂).length 0 (Nat.zero_le _) hlt (by omega) hskip
      (by rw [hmid]; exact hmatch)
  have hmod : modify_shortcut_to_final_exe "Foo" final_exe final_dir
      (seqStore (l₁ ++ eFoo :: l₂)) =
      some (seqStore (l₁ ++ updateEntryToFinalExe final_exe final_dir eFoo :: l₂)) := by
    rw [modify_shortcut_to_final_exe,
      show (seqStore (l₁ ++ eFoo :: l₂)).length = (l₁ ++ eFoo :: l₂).length by
        rw [seqStore, seqFrom_length],
      hfind]
    show some ((seqStore (l₁ ++ eFoo :: l₂)).map
        (fun p => if p.1 == natToDec l₁.length
          then (p.1, updateEntryToFinalExe final_exe final_dir p.2) else p)) =
      some (seqStore (l₁ ++ updateEntryToFinalExe final_exe final_dir eFoo :: l₂))
    rw [seqStore_mapReplace (l₁ ++ eFoo :: l₂) l₁.length
        (updateEntryToFinalExe final_exe final_dir),
      hmid, set_append_len]
  have hname : getS (updateEntryToFinalExe final_exe final_dir eFoo) "AppName" ""
      = getS eFoo "AppName" "" := by
    simp only [getS, hframe "AppName" (by decide) (by decide) (by decide)]
  have hFooName : (getS eFoo "AppName" "" == "Foo") = true := by
    by_contra hcontra
    have hfalse : (getS eFoo "AppName" "" == "Foo") = false := by
      simpa using hcontra
    rw [isBatch_false_of_name "Foo" eFoo hfalse] at hmatch
    cases hmatch
  refine ⟨hmod, hExe, hSD, hframe "appid" (by decide) (by decide) (by decide),
    hframe "LaunchOptions" (by decide) (by decide) (by decide), hframe, hCT, ?_⟩
  have hcount : ∀ (l : List Entry), (∀ e ∈ l, (getS e "AppName" "" == "Foo") = false) →
      l.filter (fun e => getS e "AppName" "" == "Foo") = [] := by
    intro l hl
    rw [List.filter_eq_nil_iff]
    intro e he
    simp [hl e he]
  rw [List.filter_append, List.filter_cons, hcount l₁ h₁, hcount l₂ h₂]
  rw [hname]
  simp [hFooName]

/-- Witness for C5 (amended) at the concrete one-entry bootstrap store. -/
theorem C5_retarget_frame_amended_witness :
    modify_shortcut_to_final_exe "Foo" "/real/ModOrganizer.exe" "/real/dir"
        (seqStore ([] ++ batchEntryC5 :: [])) =
      some (seqStore ([] ++
        updateEntryToFinalExe "/real/ModOrganizer.exe" "/real/dir" batchEntryC5 :: [])) :=
  (C5_retarget_frame_amended "/real/ModOrganizer.exe" "/real/dir" [] [] batchEntryC5
    (by simp) (by simp) (by decide)).1

/-! ## C10: the sequential-keys invariant -/

theorem seqStore_keys (l : List Entry) :
    (seqStore l).map Prod.fst = (List.range (seqStore l).length).map natToDec := by
  rw [seqStore_map_fst, seqStore, seqFrom_length]

theorem seqEntriesAux_seqStore (l : List Entry) :
    ∀ (fuel k : Nat), l.length ≤ k + fuel →
      seqEntriesAux (seqStore l) fuel k = some (l.drop k)
  | 0, k, h => by
      have hd : l.drop k = [] := List.drop_eq_nil_of_le (by omega)
      simp [seqEntriesAux, hd]
  | fuel + 1, k, h => by
      by_cases hk : k < l.length
      · have hlen : k < (seqStore l).length := by
          rw [seqStore, seqFrom_length]; exact hk
        rw [seqEntriesAux, if_pos hlen, dget?_seqStore_lt l k hk,
          seqEntriesAux_seqStore l fuel (k + 1) (by omega)]
        show some (l.getD k [] :: l.drop (k + 1)) = some (l.drop k)
        have hgd : l.getD k [] = l[k] := by
          rw [List.getD_eq_getElem?_getD, List.getElem?_eq_getElem hk]
          rfl
        rw [hgd, ← List.drop_eq_getElem_cons hk]
      · have hlen : ¬ k < (seqStore l).length := by
          rw [seqStore, seqFrom_length]; exact hk
        have hd : l.drop k = [] := List.drop_eq_nil_of_le (by omega)
        rw [seqEntriesAux, if_neg hlen, hd]

theorem seqEntries_seqStore (l : List Entry) : seqEntries (seqStore l) = some l := by
  rw [seqEntries, show (seqStore l).length = l.length from by rw [seqStore, seqFrom_length],
    seqEntriesAux_seqStore l l.length 0 (by omega), List.drop_zero]

/-- C10: after every mutating store operation — create/update, retarget to
the final executable, and cleanup of old bootstrap entries — the persisted
collection's keys are exactly the decimal strings "0" .. "n-1" of its n
entries, in order and with no gaps (for cleanup, as an invariant: from a
sequentially keyed store, any successful run yields a sequentially keyed
store). -/
theorem C10_sequential_keys_invariant (home name exe_path dir final_exe : String) :
    (∀ store : Shortcuts,
      (create_shortcut_directly_with_proton home name exe_path dir store).map Prod.fst =
        (List.range (create_shortcut_directly_with_proton home name exe_path dir
          store).length).map natToDec) ∧
    (∀ (store s' : Shortcuts),
      replace_shortcut_with_final_exe name final_exe dir store = some s' →
      s'.map Prod.fst = (List.range s'.length).map natToDec) ∧
    (∀ (l : List Entry) (s' : Shortcuts),
      cleanup_old_batch_shortcuts name (seqStore l) = some s' →
      s'.map Prod.fst = (List.range s'.length).map natToDec) := by
  refine ⟨?_, ?_, ?_⟩
  · intro store
    exact seqStore_keys _
  · intro store s' h
    simp only [replace_shortcut_with_final_exe] at h
    split at h
    · obtain rfl := Option.some.inj h
      exact seqStore_keys _
    · cases h
  · intro l s' h
    simp only [cleanup_old_batch_shortcuts, seqEntries_seqStore] at h
    split at h
    · obtain rfl := Option.some.inj h
      exact seqStore_keys _
    · obtain rfl := Option.some.inj h
      exact seqStore_keys _

/-- An old bootstrap entry (unquoted `.bat` exe) removed by cleanup. -/
def oldBatchEntryC10 : Entry :=
  [("AppName", .vs "Foo"), ("Exe", .vs "/tmp/prefix_creation_Foo_1.bat")]

/-- Witness for C10: a concrete cleanup run that removes one bootstrap
entry and re-keys the survivor at "0". -/
theorem C10_sequential_keys_invariant_witness :
    ([(natToDec 0, fooEntryC8)] : Shortcuts).map Prod.fst =
      (List.range ([(natToDec 0, fooEntryC8)] : Shortcuts).length).map natToDec :=
  (C10_sequential_keys_invariant "/h" "Foo" "/e" "/d" "/f").2.2
    [fooEntryC8, oldBatchEntryC10] [(natToDec 0, fooEntryC8)] (by rfl)

/-! ## C9: the prefix directory key -/

/-- C9 counterexample: for the workflow-produced signed identifier of
("Tuxborn", "/tmp/boot.sh") the prefix directory name is the decimal
string of the absolute value of the signed identifier, and this does NOT
coincide with the identifier's unsigned 32-bit form
`signed & 0xFFFFFFFF` (1953115905 versus 2341851391). -/
theorem C9_abs_vs_unsigned_counterexample :
    prefix_dir_name (crc32_appid "/tmp/boot.sh" "Tuxborn") = "1953115905" ∧
    generate_steam_short_id (crc32_appid "/tmp/boot.sh" "Tuxborn") = 2341851391 ∧
    prefix_dir_name (crc32_appid "/tmp/boot.sh" "Tuxborn") ≠
      natToDec (generate_steam_short_id (crc32_appid "/tmp/boot.sh" "Tuxborn")).toNat ∧
    Int.ofNat (crc32_appid "/tmp/boot.sh" "Tuxborn").natAbs ≠
      generate_steam_short_id (crc32_appid "/tmp/boot.sh" "Tuxborn") := by
  exact ⟨by decide, by decide, by decide, by decide⟩

/-- C9 (amended): the on-disk prefix directory is keyed by the decimal
string of the absolute value of the signed identifier; for a negative
synthetic identifier (the range this subsystem derives) that key is
`2^32 - unsigned`, not the unsigned 32-bit form itself — the two coincide
only at zero. -/
theorem C9_prefix_key_amended (signed : Int) (h1 : -(2 ^ 31) < signed) (h2 : signed ≤ 0) :
    prefix_dir_name signed = natToDec signed.natAbs ∧
    (signed < 0 →
      Int.ofNat signed.natAbs + generate_steam_short_id signed = 2 ^ 32) ∧
    (signed = 0 → Int.ofNat signed.natAbs = generate_steam_short_id signed) := by
  have hpow31 : (2 : Int) ^ 31 = 2147483648 := by norm_num
  have hpow32 : (2 : Int) ^ 32 = 4294967296 := by norm_num
  refine ⟨rfl, ?_, ?_⟩
  · intro hneg
    have habs : Int.ofNat signed.natAbs = -signed := Int.ofNat_natAbs_of_nonpos h2
    have hmod : generate_steam_short_id signed = signed + 2 ^ 32 := by
      rw [generate_steam_short_id, pyAnd32]
      have hrw : signed % 2 ^ 32 = (signed + 2 ^ 32 * 1) % 2 ^ 32 :=
        (Int.add_mul_emod_self_left signed (2 ^ 32) 1).symm
      rw [hrw, mul_one]
      exact Int.emod_eq_of_lt (by omega) (by omega)
    rw [habs, hmod]
    ring
  · intro hzero
    subst hzero
    decide

/-- Witness for C9 (amended) at the Tuxborn identifier. -/
theorem C9_prefix_key_amended_witness :
    Int.ofNat (crc32_appid "/tmp/boot.sh" "Tuxborn").natAbs +
      generate_steam_short_id (crc32_appid "/tmp/boot.sh" "Tuxborn") = 2 ^ 32 :=
  (C9_prefix_key_amended (crc32_appid "/tmp/boot.sh" "Tuxborn")
    (by decide) (by decide)).2.1 (by decide)

/-! ## C3: the rungameid launch handle -/

/-- C3 (code bug): `launch_shortcut_to_trigger_prefix` computes the launch
handle from the unsigned identifier, `(unsigned << 32) | 0x02000000`, but
the workflow path (`run_complete_workflow`, line 1416) that actually
launches the bootstrap entry shifts the *signed* (negative) identifier,
yielding a different, negative handle for the same entry. Evaluated at the
Tuxborn identifier. -/
theorem C3_rungameid_signed_bug :
    rungameid_of_launch_shortcut (crc32_appid "/tmp/boot.sh" "Tuxborn")
      = 10058175136470663168 ∧
    rungameid_of_run_complete_workflow (crc32_appid "/tmp/boot.sh" "Tuxborn")
      = -8388568937238888448 ∧
    rungameid_of_run_complete_workflow (crc32_appid "/tmp/boot.sh" "Tuxborn") ≠
      rungameid_of_launch_shortcut (crc32_appid "/tmp/boot.sh" "Tuxborn") ∧
    rungameid_of_launch_shortcut (crc32_appid "/tmp/boot.sh" "Tuxborn") =
      generate_steam_short_id (crc32_appid "/tmp/boot.sh" "Tuxborn") * 2 ^ 32
        + 0x02000000 := by
  exact ⟨by decide, by decide, by decide, by decide⟩

/-! ## C4: the workflow's return tuple -/

/-- The environment of the C4 failing run: the store is available, the
config write, Steam restart and launch all succeed, but the expected
compatdata directory never appears. -/
def timeoutEnvC4 : ExternalEnv :=
  ⟨true, true, true, true, false, none, none, false⟩

/-- C4 (code bug): on the run where the expected sandbox path never
appears, the workflow returns the four-component tuple
`(False, None, None, None)` — not the three-component `(false, none,
none)` its own annotation, docstring and the claim state — and the stored
entry's identifier field is left exactly as the create step set it. -/
theorem C4_workflow_return_arity_bug :
    (run_complete_workflow timeoutEnvC4 "/home/user" "Tuxborn" "/tmp" "/tmp/boot.sh"
        (seqStore [])).1 = [.rbool false, .rnone, .rnone, .rnone] ∧
    (run_complete_workflow timeoutEnvC4 "/home/user" "Tuxborn" "/tmp" "/tmp/boot.sh"
        (seqStore [])).1.length = 4 ∧
    (run_complete_workflow timeoutEnvC4 "/home/user" "Tuxborn" "/tmp" "/tmp/boot.sh"
        (seqStore [])).1 ≠ [.rbool false, .rnone, .rnone] ∧
    (run_complete_workflow timeoutEnvC4 "/home/user" "Tuxborn" "/tmp" "/tmp/boot.sh"
        (seqStore [])).2 =
      create_shortcut_directly_with_proton "/home/user" "Tuxborn" "/tmp/boot.sh" "/tmp"
        (seqStore []) ∧
    ((run_complete_workflow timeoutEnvC4 "/home/user" "Tuxborn" "/tmp" "/tmp/boot.sh"
        (seqStore [])).2).map (fun p => dget? p.2 "appid")
      = [some (.vi (crc32_appid "/tmp/boot.sh" "Tuxborn"))] := by
  exact ⟨rfl, rfl, by decide, rfl, rfl⟩

/-! ## C2: the platform-compatible hash-based derivation -/

theorem hexVal_hexDigit : ∀ d < 16, hexVal (hexDigit d) = d := by decide

theorem hexOfBytes_cons (b : Nat) (t : List Nat) :
    hexOfBytes (b :: t) = hexDigit (b / 16) :: hexDigit (b % 16) :: hexOfBytes t := by
  simp [hexOfBytes]

theorem hexOfBytes_take_even : ∀ (bs : List Nat) (k : Nat),
    (hexOfBytes bs).take (2 * k) = hexOfBytes (bs.take k)
  | [], k => by simp [hexOfBytes]
  | b :: t, 0 => by simp [hexOfBytes]
  | b :: t, k + 1 => by
      rw [show 2 * (k + 1) = 2 * k + 1 + 1 from by omega]
      simp only [hexOfBytes_cons, List.take_succ_cons]
      rw [hexOfBytes_take_even t k]

theorem parseHex_hexOfBytes_acc : ∀ (bs : List Nat), (∀ b ∈ bs, b < 256) → ∀ a : Nat,
    List.foldl (fun a c => 16 * a + hexVal c) a (hexOfBytes bs) =
      List.foldl (fun a b => 256 * a + b) a bs
  | [], _, a => rfl
  | b :: t, h, a => by
      have hb : b < 256 := h b (by simp)
      have h16a : b / 16 < 16 := by omega
      have h16b : b % 16 < 16 := by omega
      rw [hexOfBytes_cons, List.foldl_cons, List.foldl_cons, List.foldl_cons,
        hexVal_hexDigit _ h16a, hexVal_hexDigit _ h16b,
        parseHex_hexOfBytes_acc t (fun x hx => h x (by simp [hx])),
        show 16 * (16 * a + b / 16) + b % 16 = 256 * a + b by omega]

theorem le4_lt (x : Nat) : ∀ b ∈ le4 x, b < 256 := by
  intro b hb
  simp only [le4, List.mem_cons, List.not_mem_nil, or_false] at hb
  have h255 : ∀ y : Nat, y &&& 0xFF < 256 :=
    fun y => Nat.lt_succ_of_le Nat.and_le_right
  rcases hb with h | h | h | h <;> subst h <;> exact h255 _

theorem md5Bytes_lt (bs : List Nat) : ∀ b ∈ md5Bytes bs, b < 256 := by
  intro b hb
  rw [md5Bytes] at hb
  rcases hfold : (chunks64 (md5Pad bs)).foldl md5Chunk
      (0x67452301, 0xefcdab89, 0x98badcfe, 0x10325476) with ⟨a, b', c', d'⟩
  rw [hfold] at hb
  simp only [List.mem_append] at hb
  rcases hb with ((hb | hb) | hb) | hb
  · exact le4_lt a b hb
  · exact le4_lt b' b hb
  · exact le4_lt c' b hb
  · exact le4_lt d' b hb

/-- C2 counterexample: the claim's "low 32 bits of the 128-bit hash"
(the hash's hex digest read as one big-endian number, reduced mod `2^32`)
disagrees with the code, which takes the *first* eight hex-digest
characters: at ("Tuxborn", "/tmp/boot.sh") the code derives signed
identifier -371927978 while the claimed formula gives -977219552. -/
theorem C2_low32_counterexample :
    stl_signed_appid "Tuxborn" "/tmp/boot.sh" = -371927978 ∧
    spec_low32_signed_appid "Tuxborn" "/tmp/boot.sh" = -977219552 ∧
    stl_signed_appid "Tuxborn" "/tmp/boot.sh"
      ≠ spec_low32_signed_appid "Tuxborn" "/tmp/boot.sh" := by
  have h1 : stl_signed_appid "Tuxborn" "/tmp/boot.sh" = -371927978 := by decide
  have h2 : spec_low32_signed_appid "Tuxborn" "/tmp/boot.sh" = -977219552 := by decide
  refine ⟨h1, h2, ?_⟩
  rw [h1, h2]
  decide

/-- C2 (amended): the derivation computes the 128-bit MD5 hash of the
UTF-8 concatenation of (name, path) in that order, takes the *first* eight
hex-digest characters — i.e. the first-serialized four digest bytes, read
big-endian — interprets them as an unsigned number, reduces modulo one
billion and negates to obtain the signed identifier; the returned unsigned
identifier is `signed & 0xFFFFFFFF`, a value in `[0, 2^32)`. -/
theorem C2_stl_hash_identifier_amended (shortcut_name exe_path : String) :
    predict_appid_using_stl_algorithm shortcut_name exe_path
      = pyAnd32 (stl_signed_appid shortcut_name exe_path) ∧
    stl_signed_appid shortcut_name exe_path =
      -(Int.ofNat (beVal ((md5Bytes (utf8 (shortcut_name ++ exe_path))).take 4)
        % 1000000000)) ∧
    0 ≤ predict_appid_using_stl_algorithm shortcut_name exe_path ∧
    predict_appid_using_stl_algorithm shortcut_name exe_path < 2 ^ 32 := by
  refine ⟨rfl, ?_, ?_, ?_⟩
  · show -(Int.ofNat (parseHex ((hexOfBytes
        (md5Bytes (utf8 (shortcut_name ++ exe_path)))).take 8) % 1000000000)) =
      -(Int.ofNat (beVal ((md5Bytes (utf8 (shortcut_name ++ exe_path))).take 4)
        % 1000000000))
    rw [show (8 : Nat) = 2 * 4 from rfl, hexOfBytes_take_even]
    rw [show parseHex (hexOfBytes ((md5Bytes (utf8 (shortcut_name ++ exe_path))).take 4))
        = beVal ((md5Bytes (utf8 (shortcut_name ++ exe_path))).take 4) from
      parseHex_hexOfBytes_acc _
        (fun x hx => md5Bytes_lt _ x (List.mem_of_mem_take hx)) 0]
  · exact Int.emod_nonneg _ (by norm_num)
  · exact Int.emod_lt_of_pos _ (by norm_num)

/-! ## C6: the config.vdf patch inserts the new block and leaves the rest alone -/

theorem findIdx?_append_first {p : String → Bool} : ∀ (pre : List String) (a : String)
    (rest : List String) (i : Nat), (∀ l ∈ pre, p l = false) → p a = true →
    List.findIdx? p (pre ++ a :: rest) i = some (i + pre.length)
  | [], a, rest, i, _, ha => by
      simp [List.findIdx?_cons, ha]
  | b :: pre, a, rest, i, hpre, ha => by
      have hb : p b = false := hpre b (by simp)
      rw [List.cons_append, List.findIdx?_cons, if_neg (by simp [hb]),
        findIdx?_append_first pre a rest (i + 1) (fun l hl => hpre l (by simp [hl])) ha]
      congr 1
      simp only [List.length_cons]
      omega

theorem findSectionEnd_open (l : String) (rest : List String) (j : Nat) (bc : Int)
    (ho : hasOpenBrace l = true) (hc : hasCloseBrace l = false) :
    findSectionEnd (l :: rest) j bc = findSectionEnd rest (j + 1) (bc + 1) := by
  simp only [findSectionEnd, ho, hc, Bool.false_eq_true, eq_self_iff_true, if_true, if_false]

theorem findSectionEnd_neither (l : String) (rest : List String) (j : Nat) (bc : Int)
    (ho : hasOpenBrace l = false) (hc : hasCloseBrace l = false) :
    findSectionEnd (l :: rest) j bc = findSectionEnd rest (j + 1) bc := by
  simp only [findSectionEnd, ho, hc, Bool.false_eq_true, if_false]

theorem findSectionEnd_close_cont (l : String) (rest : List String) (j : Nat) (bc : Int)
    (ho : hasOpenBrace l = false) (hc : hasCloseBrace l = true) (hne : ¬ bc - 1 = 0) :
    findSectionEnd (l :: rest) j bc = findSectionEnd rest (j + 1) (bc - 1) := by
  simp only [findSectionEnd, ho, hc, Bool.false_eq_true, eq_self_iff_true, if_true, if_false]
  rw [if_neg hne]

theorem findSectionEnd_close_here (l : String) (rest : List String) (j : Nat) (bc : Int)
    (ho : hasOpenBrace l = false) (hc : hasCloseBrace l = true) (heq : bc - 1 = 0) :
    findSectionEnd (l :: rest) j bc = some j := by
  simp only [findSectionEnd, ho, hc, Bool.false_eq_true, eq_self_iff_true, if_true, if_false]
  rw [if_pos heq]

theorem findSectionEnd_skip : ∀ (ls rest : List String) (j : Nat) (bc : Int),
    (∀ l ∈ ls, hasOpenBrace l = false ∧ hasCloseBrace l = false) →
    findSectionEnd (ls ++ rest) j bc = findSectionEnd rest (j + ls.length) bc
  | [], rest, j, bc, _ => by simp
  | a :: ls, rest, j, bc, h => by
      obtain ⟨ho, hc⟩ := h a (by simp)
      have harith : j + 1 + ls.length = j + (a :: ls).length := by
        simp only [List.length_cons]
        omega
      rw [List.cons_append, findSectionEnd_neither a _ j bc ho hc,
        findSectionEnd_skip ls rest (j + 1) bc (fun l hl => h l (by simp [hl])), harith]

theorem pyInsertAt_cons (y : String) (ys : List String) (n : Nat) (a : String) :
    pyInsertAt (y :: ys) (n + 1) a = y :: pyInsertAt ys n a := rfl

theorem pyInsertAt_append_left : ∀ (xs ys : List String) (n : Nat) (a : String),
    pyInsertAt (xs ++ ys) (xs.length + n) a = xs ++ pyInsertAt ys n a
  | [], ys, n, a => by simp [pyInsertAt]
  | x :: xs, ys, n, a => by
      have harith : (x :: xs).length + n = (xs.length + n) + 1 := by
        simp only [List.length_cons]
        omega
      rw [List.cons_append, harith, pyInsertAt_cons,
        pyInsertAt_append_left xs ys n a, List.cons_append]

/-- C6: on a `config.vdf` whose `CompatToolMapping` section holds one existing
block for an unrelated identifier (an id line, an opening brace line, brace-free
field lines, a closing brace line) and no line carrying the quoted new appid,
the patch inserts the new entry text exactly before the section's closing brace:
every preceding line, the whole unrelated block, and every following line
survive unchanged, in order, and the inserted text carries the quoted unsigned
appid and a `"name"` line holding the requested compatibility tool. -/
theorem C6_patch_preserves_unrelated_block
    (pre flds post : List String) (lctm lopen uid_line ub_open ub_close lclose : String)
    (appid : Nat) (tool : String)
    (hpre : ∀ l ∈ pre, pyIn ctmToken (pyStripWs l) = false)
    (hctm : pyIn ctmToken (pyStripWs lctm) = true)
    (hlo : hasOpenBrace lopen = true) (hlo' : hasCloseBrace lopen = false)
    (hu : hasOpenBrace uid_line = false) (hu' : hasCloseBrace uid_line = false)
    (hbo : hasOpenBrace ub_open = true) (hbo' : hasCloseBrace ub_open = false)
    (hbc : hasOpenBrace ub_close = false) (hbc' : hasCloseBrace ub_close = true)
    (hlc : hasOpenBrace lclose = false) (hlc' : hasCloseBrace lclose = true)
    (hflds : ∀ l ∈ flds, hasOpenBrace l = false ∧ hasCloseBrace l = false)
    (htok : ∀ l ∈ lctm :: lopen :: uid_line :: ub_open :: (flds ++ [ub_close, lclose]),
      pyIn (quotedNat appid) l = false) :
    set_compat_tool_config_lines appid tool
        (pre ++ lctm :: lopen :: uid_line :: ub_open ::
          (flds ++ ub_close :: lclose :: post)) =
      some (pre ++ lctm :: lopen :: uid_line :: ub_open ::
        (flds ++ ub_close :: new_compat_entry_text appid tool :: lclose :: post)) ∧
    pyIn (quotedNat appid) (new_compat_entry_text appid tool) = true ∧
    pyIn ("\t\t\t\t\t\t\t\t\t\t\"name\"\t\t\t\t\"" ++ tool ++ "\"\n")
      (new_compat_entry_text appid tool) = true := by
  refine ⟨?_, ?_, ?_⟩
  · have hfind : List.findIdx? (fun l => pyIn ctmToken (pyStripWs l))
        (pre ++ lctm :: lopen :: uid_line :: ub_open ::
          (flds ++ ub_close :: lclose :: post)) = some pre.length := by
      rw [findIdx?_append_first pre lctm _ 0 hpre hctm]
      simp
    have hdrop1 : (pre ++ lctm :: lopen :: uid_line :: ub_open ::
        (flds ++ ub_close :: lclose :: post)).drop (pre.length + 1) =
        lopen :: uid_line :: ub_open :: (flds ++ ub_close :: lclose :: post) := by
      rw [List.drop_append 1]
      rfl
    have hscan : findSectionEnd
        (lopen :: uid_line :: ub_open :: (flds ++ ub_close :: lclose :: post))
        (pre.length + 1) 0 =
        some (pre.length + 5 + flds.length) := by
      rw [findSectionEnd_open lopen _ _ _ hlo hlo',
        findSectionEnd_neither uid_line _ _ _ hu hu',
        findSectionEnd_open ub_open _ _ _ hbo hbo',
        findSectionEnd_skip flds _ _ _ hflds,
        findSectionEnd_close_cont ub_close _ _ _ hbc hbc' (by norm_num),
        findSectionEnd_close_here lclose _ _ _ hlc hlc' (by norm_num)]
      congr 1
      omega
    have htake : (pre ++ lctm :: lopen :: uid_line :: ub_open ::
        (flds ++ ub_close :: lclose :: post)).take (pre.length + 5 + flds.length + 1) =
        pre ++ lctm :: lopen :: uid_line :: ub_open :: (flds ++ [ub_close, lclose]) := by
      rw [show pre.length + 5 + flds.length + 1 = pre.length + (flds.length + 6) from by omega,
        List.take_append]
      congr 1
      rw [show flds.length + 6 = flds.length + 5 + 1 from by omega, List.take_succ_cons,
        show flds.length + 5 = flds.length + 4 + 1 from by omega, List.take_succ_cons,
        show flds.length + 4 = flds.length + 3 + 1 from by omega, List.take_succ_cons,
        show flds.length + 3 = flds.length + 2 + 1 from by omega, List.take_succ_cons,
        List.take_append]
      rfl
    have hsect : ((pre ++ lctm :: lopen :: uid_line :: ub_open ::
        (flds ++ ub_close :: lclose :: post)).take
          (pre.length + 5 + flds.length + 1)).drop pre.length =
        lctm :: lopen :: uid_line :: ub_open :: (flds ++ [ub_close, lclose]) := by
      rw [htake]
      exact List.drop_left pre _
    have hnone : List.findIdx? (fun l => pyIn (quotedNat appid) l)
        (lctm :: lopen :: uid_line :: ub_open :: (flds ++ [ub_close, lclose])) = none :=
      List.findIdx?_eq_none_iff.mpr htok
    have hins : pyInsertAt
        (pre ++ lctm :: lopen :: uid_line :: ub_open ::
          (flds ++ ub_close :: lclose :: post))
        (pre.length + 5 + flds.length) (new_compat_entry_text appid tool) =
        pre ++ lctm :: lopen :: uid_line :: ub_open ::
          (flds ++ ub_close :: new_compat_entry_text appid tool :: lclose :: post) := by
      rw [show pre.length + 5 + flds.length = pre.length + (flds.length + 5) from by omega,
        pyInsertAt_append_left pre _ (flds.length + 5) _]
      congr 1
      rw [show flds.length + 5 = flds.length + 4 + 1 from by omega, pyInsertAt_cons,
        show flds.length + 4 = flds.length + 3 + 1 from by omega, pyInsertAt_cons,
        show flds.length + 3 = flds.length + 2 + 1 from by omega, pyInsertAt_cons,
        show flds.length + 2 = flds.length + 1 + 1 from by omega, pyInsertAt_cons,
        pyInsertAt_append_left flds _ 1 _]
      rfl
    simp only [set_compat_tool_config_lines, hfind, hdrop1, hscan, hsect, hnone, hins]
  · simp only [pyIn, new_compat_entry_text, String.data_append, decide_eq_true_eq]
    exact ⟨"\t\t\t\t\t\t\t\t\t".data,
      "\n".data ++ "\t\t\t\t\t\t\t\t\t\x7b\n".data ++
        "\t\t\t\t\t\t\t\t\t\t\"name\"\t\t\t\t\"".data ++ tool.data ++ "\"\n".data ++
        "\t\t\t\t\t\t\t\t\t\t\"config\"\t\t\t\t\t\"\"\n".data ++
        "\t\t\t\t\t\t\t\t\t\t\"priority\"\t\t\t\t\t\"250\"\n".data ++
        "\t\t\t\t\t\t\t\t\t\x7d\n".data,
      by simp [List.append_assoc]⟩
  · simp only [pyIn, new_compat_entry_text, String.data_append, decide_eq_true_eq]
    exact ⟨"\t\t\t\t\t\t\t\t\t".data ++ (quotedNat appid).data ++ "\n".data ++
        "\t\t\t\t\t\t\t\t\t\x7b\n".data,
      "\t\t\t\t\t\t\t\t\t\t\"config\"\t\t\t\t\t\"\"\n".data ++
        "\t\t\t\t\t\t\t\t\t\t\"priority\"\t\t\t\t\t\"250\"\n".data ++
        "\t\t\t\t\t\t\t\t\t\x7d\n".data,
      by simp [List.append_assoc]⟩

theorem C6_patch_preserves_unrelated_block_witness :
    set_compat_tool_config_lines 456 "proton_experimental"
        (["\"Software\"\n"] ++ "\t\"CompatToolMapping\"\n" :: "\t\x7b\n" ::
          "\t\t\"123\"\n" :: "\t\t\x7b\n" ::
          (["\t\t\t\"name\"\t\t\"proton_9\"\n"] ++ "\t\t\x7d\n" :: "\t\x7d\n" :: [])) =
      some (["\"Software\"\n"] ++ "\t\"CompatToolMapping\"\n" :: "\t\x7b\n" ::
        "\t\t\"123\"\n" :: "\t\t\x7b\n" ::
        (["\t\t\t\"name\"\t\t\"proton_9\"\n"] ++ "\t\t\x7d\n" ::
          new_compat_entry_text 456 "proton_experimental" :: "\t\x7d\n" :: [])) ∧
    pyIn (quotedNat 456) (new_compat_entry_text 456 "proton_experimental") = true ∧
    pyIn ("\t\t\t\t\t\t\t\t\t\t\"name\"\t\t\t\t\"" ++ "proton_experimental" ++ "\"\n")
      (new_compat_entry_text 456 "proton_experimental") = true :=
  C6_patch_preserves_unrelated_block
    ["\"Software\"\n"] ["\t\t\t\"name\"\t\t\"proton_9\"\n"] []
    "\t\"CompatToolMapping\"\n" "\t\x7b\n" "\t\t\"123\"\n" "\t\t\x7b\n" "\t\t\x7d\n" "\t\x7d\n"
    456 "proton_experimental"
    (by decide) (by decide) (by decide) (by decide) (by decide) (by decide) (by decide)
    (by decide) (by decide) (by decide) (by decide) (by decide) (by decide) (by decide)

end Jackify
